import Mathlib

/-!
# Boids: a shallow embedding of `src/main.c`

The C `float` type is idealised as an arbitrary linearly ordered field `F`
(with a floor function for the single `float -> int` conversion), so that the
definitions below are executable on `ℚ` and the theorems hold in particular on
`ℝ`.  The C library function `sqrtf` is taken as a parameter `sqrtf : F → F`;
theorems that rely on it being an exact square root say so through `IsSqrt`,
and the concrete evaluations are done on `ℝ` with `Real.sqrt`.

Loops `for (k = 0; k < n; k++)` are folds over `List.range n`.  The two
heap arrays `boids` and `visibleBoids` are lists; `length` is the length of
`boids`.  A write outside a list is dropped and a read outside it yields
`Boid.zero`; neither happens in `update` when `visibleBoids` has at least
`length` cells, which is how `setup` allocates it, and the theorems that depend
on the contents of the buffer assume it.  A `Boid *` that is only dereferenced
is a value passed in and returned; in `avoid`, where the pointer is compared
with `&boids[i]`, it is the index into `boids`.

The functions `Vector2Add`, `Vector2Scale`, `Vector2Length`, `Vector2Distance`
and `Vector2Normalize` belong to raylib (`raymath.h`), which `main.c` includes;
they are transcribed from that header.
-/

namespace Boids

/-! ## raylib / raymath types and functions used by `main.c` -/

/-- The raylib `Vector2` struct. -/
structure Vector2 (F : Type) where
  x : F
  y : F

/-- The `struct Boid` of `main.c`. -/
structure Boid (F : Type) where
  pos : Vector2 F
  velocity : Vector2 F

section Defs

variable {F : Type} [LinearOrderedField F]

/-- The value `{ 0 }` of a `Vector2`. -/
def Vector2Zero : Vector2 F := ⟨0, 0⟩

/-- Contents assumed for an array cell that is never read inside the bounds
of the loops (placeholder of `List.getD`). -/
def Boid.zero : Boid F := ⟨Vector2Zero, Vector2Zero⟩

/-- The function `Vector2Add` of raymath. -/
def Vector2Add (v1 v2 : Vector2 F) : Vector2 F :=
  ⟨v1.x + v2.x, v1.y + v2.y⟩

/-- The function `Vector2Scale` of raymath. -/
def Vector2Scale (v : Vector2 F) (scale : F) : Vector2 F :=
  ⟨v.x * scale, v.y * scale⟩

/-- The function `Vector2Length` of raymath: `sqrtf((v.x*v.x) + (v.y*v.y))`. -/
def Vector2Length (sqrtf : F → F) (v : Vector2 F) : F :=
  sqrtf ((v.x * v.x) + (v.y * v.y))

/-- The function `Vector2Distance` of raymath. -/
def Vector2Distance (sqrtf : F → F) (v1 v2 : Vector2 F) : F :=
  sqrtf ((v1.x - v2.x) * (v1.x - v2.x) + (v1.y - v2.y) * (v1.y - v2.y))

/-- The function `Vector2Normalize` of raymath: the result is `{ 0 }` unless
the length is positive. -/
def Vector2Normalize (sqrtf : F → F) (v : Vector2 F) : Vector2 F :=
  let length := sqrtf ((v.x * v.x) + (v.y * v.y))
  if length > 0 then
    let ilength := 1 / length
    ⟨v.x * ilength, v.y * ilength⟩
  else Vector2Zero

/-! ## Globals of `main.c` -/

/-- The constant `windowWidth`. -/
def windowWidth : Int := 1200

/-- The constant `windowHeight`. -/
def windowHeight : Int := 800

/-- The scalar globals of `main.c` (everything but the two arrays). -/
structure Globals (F : Type) where
  marginSize : Int
  innerWidth : Int
  innerHeight : Int
  marginStart : Vector2 F
  marginEnd : Vector2 F
  marginTurnFactor : F
  speedLimitMin : F
  speedLimitMax : F
  vision : F
  centeringFactor : F
  avoidDistance : F
  avoidFactor : F
  matchFactor : F

/-- The two heap arrays `boids` and `visibleBoids`. -/
structure Memory (F : Type) where
  boids : List (Boid F)
  visibleBoids : List (Boid F)

/-- The global `length`: the number of cells of `boids`. -/
def Memory.length (m : Memory F) : Nat := m.boids.length

/-- The C conversion `(int)x` of a float: truncation towards zero. -/
def floatToInt [FloorRing F] (x : F) : Int :=
  if 0 ≤ x then Int.floor x else Int.ceil x

/-- The function `setMargin` of `main.c`. -/
def setMargin [FloorRing F] (g : Globals F) (size : Int) : Globals F :=
  let marginStart : Vector2 F := ⟨(size : F), (size : F)⟩
  let marginEnd : Vector2 F :=
    ⟨((windowWidth - size : Int) : F), ((windowHeight - size : Int) : F)⟩
  { g with
    marginSize := size
    marginStart := marginStart
    marginEnd := marginEnd
    innerWidth := floatToInt (marginEnd.x - marginStart.x)
    innerHeight := floatToInt (marginEnd.y - marginStart.y) }

/-- The initial values of the globals (the initialisers of `main.c`), the
margin fields being zero-initialised. -/
def initialGlobals : Globals F where
  marginSize := 0
  innerWidth := 0
  innerHeight := 0
  marginStart := Vector2Zero
  marginEnd := Vector2Zero
  marginTurnFactor := 1
  speedLimitMin := 1
  speedLimitMax := 10
  vision := 75
  centeringFactor := 0.005
  avoidDistance := 20
  avoidFactor := 0.05
  matchFactor := 0.05

/-- The globals once `setup` has called `setMargin(200)`. -/
def defaultGlobals [FloorRing F] : Globals F := setMargin initialGlobals 200

/-! ## The functions of `main.c` -/

/-- One boid built by the body of the loop of `randomize`, from the five
values `r0 .. r4` that the five calls of `randf` return, in order. -/
def randomBoid (sqrtf : F → F) (g : Globals F) (r0 r1 r2 r3 r4 : F) : Boid F :=
  let pos : Vector2 F :=
    ⟨(r0 * (g.innerWidth : F)) + (g.marginSize : F),
     (r1 * (g.innerHeight : F)) + (g.marginSize : F)⟩
  let dir : Vector2 F := ⟨r2 * 2 - 1, r3 * 2 - 1⟩
  let dir := Vector2Normalize sqrtf dir
  let dir := Vector2Scale dir (r4 * (g.speedLimitMax - g.speedLimitMin) + g.speedLimitMin)
  ⟨pos, dir⟩

/-- The function `randomize` of `main.c`; `rs k` is the value returned by the
`k`-th call of `randf` from now on. -/
def randomize (sqrtf : F → F) (g : Globals F) (rs : Nat → F) (m : Memory F) : Memory F :=
  { m with
    boids := (List.range m.length).foldl
      (fun boids i =>
        boids.set i (randomBoid sqrtf g (rs (5 * i)) (rs (5 * i + 1)) (rs (5 * i + 2))
          (rs (5 * i + 3)) (rs (5 * i + 4))))
      m.boids }

/-- Body of the inner loop of `update` (lines 105-112): `acc` is the pair
`(visibleBoids, visible)`. -/
def scanStep (sqrtf : F → F) (g : Globals F) (boids : List (Boid F)) (i : Nat)
    (acc : List (Boid F) × Nat) (j : Nat) : List (Boid F) × Nat :=
  let boid := boids.getD i Boid.zero
  let b := boids.getD j Boid.zero
  if j ≠ i ∧ Vector2Distance sqrtf b.pos boid.pos < g.vision then
    (acc.1.set acc.2 b, acc.2 + 1)
  else acc

/-- The inner loop of `update` (lines 104-112): returns the buffer
`visibleBoids` and the counter `visible`. -/
def scanVisible (sqrtf : F → F) (g : Globals F) (m : Memory F) (i : Nat) :
    List (Boid F) × Nat :=
  (List.range m.length).foldl (scanStep sqrtf g m.boids i) (m.visibleBoids, 0)

/-- The function `flyTowardsCenter` of `main.c`. -/
def flyTowardsCenter (g : Globals F) (visibleBoids : List (Boid F)) (boid : Boid F)
    (visible : Nat) : Boid F :=
  let center : F × F := (List.range visible).foldl
    (fun c i => (c.1 + (visibleBoids.getD i Boid.zero).pos.x,
                 c.2 + (visibleBoids.getD i Boid.zero).pos.y))
    (0, 0)
  if visible ≠ 0 then
    let centerX := center.1 / (visible : F)
    let centerY := center.2 / (visible : F)
    { boid with
      velocity :=
        ⟨boid.velocity.x + (centerX - boid.pos.x) * g.centeringFactor,
         boid.velocity.y + (centerY - boid.pos.y) * g.centeringFactor⟩ }
  else boid

/-- The function `avoid` of `main.c`; the argument `boid` is `&boids[i]`. -/
def avoid (sqrtf : F → F) (g : Globals F) (boids : List (Boid F)) (i : Nat) :
    List (Boid F) :=
  let boid := boids.getD i Boid.zero
  let move : F × F := (List.range boids.length).foldl
    (fun mv k =>
      let b := boids.getD k Boid.zero
      if i ≠ k then
        if Vector2Distance sqrtf boid.pos b.pos < g.avoidDistance then
          (mv.1 + (boid.pos.x - b.pos.x), mv.2 + (boid.pos.y - b.pos.y))
        else mv
      else mv)
    (0, 0)
  boids.set i
    { boid with
      velocity :=
        ⟨boid.velocity.x + move.1 * g.avoidFactor,
         boid.velocity.y + move.2 * g.avoidFactor⟩ }

/-- The function `matchVelocity` of `main.c`. -/
def matchVelocity (g : Globals F) (visibleBoids : List (Boid F)) (boid : Boid F)
    (visible : Nat) : Boid F :=
  let avg : F × F := (List.range visible).foldl
    (fun a i => (a.1 + (visibleBoids.getD i Boid.zero).velocity.x,
                 a.2 + (visibleBoids.getD i Boid.zero).velocity.y))
    (0, 0)
  if visible ≠ 0 then
    let avgX := avg.1 / (visible : F)
    let avgY := avg.2 / (visible : F)
    { boid with
      velocity :=
        ⟨boid.velocity.x + (avgX - boid.velocity.x) * g.matchFactor,
         boid.velocity.y + (avgY - boid.velocity.y) * g.matchFactor⟩ }
  else boid

/-- The function `checkMargins` of `main.c`: four successive `if`s. -/
def checkMargins (g : Globals F) (boid : Boid F) : Boid F :=
  let boid : Boid F :=
    if boid.pos.x < g.marginStart.x then
      { boid with velocity := ⟨boid.velocity.x + g.marginTurnFactor, boid.velocity.y⟩ }
    else boid
  let boid : Boid F :=
    if boid.pos.x > g.marginEnd.x then
      { boid with velocity := ⟨boid.velocity.x - g.marginTurnFactor, boid.velocity.y⟩ }
    else boid
  let boid : Boid F :=
    if boid.pos.y < g.marginStart.y then
      { boid with velocity := ⟨boid.velocity.x, boid.velocity.y + g.marginTurnFactor⟩ }
    else boid
  if boid.pos.y > g.marginEnd.y then
    { boid with velocity := ⟨boid.velocity.x, boid.velocity.y - g.marginTurnFactor⟩ }
  else boid

/-- The function `checkSpeed` of `main.c`. -/
def checkSpeed (sqrtf : F → F) (g : Globals F) (boid : Boid F) : Boid F :=
  if Vector2Length sqrtf boid.velocity > g.speedLimitMax then
    { boid with
      velocity := Vector2Scale (Vector2Normalize sqrtf boid.velocity) g.speedLimitMax }
  else if Vector2Length sqrtf boid.velocity < g.speedLimitMin then
    { boid with
      velocity := Vector2Scale (Vector2Normalize sqrtf boid.velocity) g.speedLimitMin }
  else boid

/-- Steering of agent `i` (lines 102-115 of `update`): the neighbour scan, then
`flyTowardsCenter`, `avoid` and `matchVelocity` on `&boids[i]`. -/
def steer (sqrtf : F → F) (g : Globals F) (m : Memory F) (i : Nat) : Memory F :=
  let scan := scanVisible sqrtf g m i
  let boids := m.boids.set i
    (flyTowardsCenter g scan.1 (m.boids.getD i Boid.zero) scan.2)
  let boids := avoid sqrtf g boids i
  let boids := boids.set i (matchVelocity g scan.1 (boids.getD i Boid.zero) scan.2)
  ⟨boids, scan.1⟩

/-- Body of the outer loop of `update` (lines 102-121) for agent `i`;
`frameTime` is the value of `GetFrameTime()`. -/
def updateBoid (sqrtf : F → F) (g : Globals F) (frameTime : F) (m : Memory F) (i : Nat) :
    Memory F :=
  let m := steer sqrtf g m i
  let boid := checkMargins g (m.boids.getD i Boid.zero)
  let boid := checkSpeed sqrtf g boid
  let boid : Boid F :=
    { boid with pos := Vector2Add boid.pos (Vector2Scale boid.velocity (frameTime * 60)) }
  { m with boids := m.boids.set i boid }

/-- The function `update` of `main.c`: `keyR` is the value of
`IsKeyPressed(KEY_R)`, `rs` the values `randf` would return, `frameTime` the
value of `GetFrameTime()`. -/
def update (sqrtf : F → F) (g : Globals F) (keyR : Bool) (rs : Nat → F) (frameTime : F)
    (m : Memory F) : Memory F :=
  let m := if keyR then randomize sqrtf g rs m else m
  (List.range m.length).foldl (updateBoid sqrtf g frameTime) m

/-! ## Vocabulary of the specification -/

/-- The magnitude `|v|` squared. -/
def normSq (v : Vector2 F) : F := v.x * v.x + v.y * v.y

/-- The property that `sqrtf` is an exact square root on non-negative numbers
(as `Real.sqrt` is). -/
def IsSqrt (sqrtf : F → F) : Prop :=
  ∀ x, 0 ≤ x → 0 ≤ sqrtf x ∧ sqrtf x * sqrtf x = x

/-- The neighbour set of agent `i` for a radius: the indices `j ≠ i`, in
increasing order, whose distance to agent `i` is strictly less than `radius`. -/
def neighborsWithin (sqrtf : F → F) (boids : List (Boid F)) (i : Nat) (radius : F) :
    List Nat :=
  (List.range boids.length).filter
    (fun j => decide (j ≠ i ∧
      Vector2Distance sqrtf (boids.getD j Boid.zero).pos (boids.getD i Boid.zero).pos < radius))

/-- The mean of a list of numbers (of a non-empty list, wherever it is used). -/
def mean (l : List F) : F := l.sum / (l.length : F)

/-- The function `Vector2Subtract` of raymath, for the formulas of the
specification. -/
def Vector2Subtract (v1 v2 : Vector2 F) : Vector2 F :=
  ⟨v1.x - v2.x, v1.y - v2.y⟩

/-- The mean position of the agents whose indices are in `S`. -/
def meanPosition (boids : List (Boid F)) (S : List Nat) : Vector2 F :=
  ⟨mean (S.map (fun j => (boids.getD j Boid.zero).pos.x)),
   mean (S.map (fun j => (boids.getD j Boid.zero).pos.y))⟩

/-- The mean velocity of the agents whose indices are in `S`. -/
def meanVelocity (boids : List (Boid F)) (S : List Nat) : Vector2 F :=
  ⟨mean (S.map (fun j => (boids.getD j Boid.zero).velocity.x)),
   mean (S.map (fun j => (boids.getD j Boid.zero).velocity.y))⟩

/-- The sum of `position_i - position_j` over the indices `j` in `S`. -/
def sumOffsets (boids : List (Boid F)) (i : Nat) (S : List Nat) : Vector2 F :=
  ⟨(S.map (fun j => (boids.getD i Boid.zero).pos.x - (boids.getD j Boid.zero).pos.x)).sum,
   (S.map (fun j => (boids.getD i Boid.zero).pos.y - (boids.getD j Boid.zero).pos.y)).sum⟩

/-- The velocity of agent `i` once the three steering deltas are added, in the
order cohesion, separation, alignment, each computed from the velocity left by
the previous one (formulas of the specification). -/
def steeredVelocity (sqrtf : F → F) (g : Globals F) (boids : List (Boid F)) (i : Nat) :
    Vector2 F :=
  let self := boids.getD i Boid.zero
  let S := neighborsWithin sqrtf boids i g.vision
  let v1 := if S = [] then self.velocity else
    Vector2Add self.velocity
      (Vector2Scale (Vector2Subtract (meanPosition boids S) self.pos) g.centeringFactor)
  let v2 := Vector2Add v1
    (Vector2Scale (sumOffsets boids i (neighborsWithin sqrtf boids i g.avoidDistance))
      g.avoidFactor)
  if S = [] then v2 else
    Vector2Add v2 (Vector2Scale (Vector2Subtract (meanVelocity boids S) v2) g.matchFactor)

/-- The two-agent store of the concrete scenario of the specification: agent A
at (100,100) with velocity (1,0), agent B at (110,100) with velocity (-1,0). -/
def scenario : Memory F :=
  ⟨[⟨⟨100, 100⟩, ⟨1, 0⟩⟩, ⟨⟨110, 100⟩, ⟨-1, 0⟩⟩], [Boid.zero, Boid.zero]⟩

/-- The neutral configuration of the boundary test of the specification: the
default globals with the three behaviour factors set to zero. -/
def neutralGlobals [FloorRing F] : Globals F :=
  { (defaultGlobals : Globals F) with centeringFactor := 0, avoidFactor := 0, matchFactor := 0 }

/-- The function `setup` of `main.c`, for the value `length` of the global of
that name and the values `g` of the other globals at the call: the two arrays
are allocated with `length` cells (their contents, which C leaves
indeterminate, are `Boid.zero`), `setMargin(200)` is called, then
`randomize`.  The raylib window calls and `srand` have no effect on the
state modelled here. -/
def setup [FloorRing F] (sqrtf : F → F) (g : Globals F) (length : Nat) (rs : Nat → F) :
    Globals F × Memory F :=
  let boids : List (Boid F) := List.replicate length Boid.zero
  let visibleBoids : List (Boid F) := List.replicate length Boid.zero
  let g := setMargin g 200
  (g, randomize sqrtf g rs ⟨boids, visibleBoids⟩)

/-- The valid configurations of the specification (section 7): no negative
radius, `speedLimitMin ≤ speedLimitMax`, and a margin smaller than half of each
playfield dimension. -/
def validConfig (g : Globals F) : Prop :=
  0 ≤ g.vision ∧ 0 ≤ g.avoidDistance ∧ g.speedLimitMin ≤ g.speedLimitMax ∧
    2 * g.marginSize < windowWidth ∧ 2 * g.marginSize < windowHeight

/-- The same memory with the agents of the store in the opposite order. -/
def swapAgents (m : Memory F) : Memory F :=
  ⟨m.boids.reverse, m.visibleBoids⟩

end Defs

end Boids

namespace Boids
section Lemmas
variable {F : Type} [LinearOrderedField F]

/-- Reading the first `n` cells of a buffer by index is reading `take n`. -/
theorem foldl_range_getD {α β : Type} (h : β → α → β) (buf : List α) (z : α) :
    ∀ (n : Nat), n ≤ buf.length → ∀ c : β,
      (List.range n).foldl (fun c i => h c (buf.getD i z)) c = (buf.take n).foldl h c := by
  intro n
  induction n with
  | zero => intro _ c; simp
  | succ n ih =>
    intro hn c
    have hlt : n < buf.length := hn
    rw [List.range_succ, List.foldl_append, ih (Nat.le_of_lt hlt) c, List.take_succ,
      List.foldl_append]
    simp [List.getD, List.getElem?_eq_getElem hlt]

/-- Summing two components in one left fold. -/
theorem foldl_pair_sum {α : Type} (f k : α → F) (l : List α) :
    ∀ c : F × F, l.foldl (fun c b => (c.1 + f b, c.2 + k b)) c =
      (c.1 + (l.map f).sum, c.2 + (l.map k).sum) := by
  induction l with
  | nil => intro c; simp
  | cons a l ih => intro c; rw [List.foldl_cons, ih]; simp [add_assoc]

/-- Writing cell `n` extends the prefix of length `n` by the value written. -/
theorem take_succ_set {α : Type} (buf : List α) (n : Nat) (b : α) (hn : n < buf.length) :
    (buf.set n b).take (n + 1) = buf.take n ++ [b] := by
  have h1 : (buf.set n b).take n = buf.take n := by
    rw [List.set_take]
    exact List.set_eq_of_length_le (by simp)
  rw [List.take_succ, h1]
  simp [hn]

end Lemmas
end Boids

namespace Boids
section Scan
variable {F : Type} [LinearOrderedField F]

/-- The indices below `k` that pass a test are at most `k`. -/
theorem filter_range_length_le (p : Nat → Bool) (k : Nat) :
    ((List.range k).filter p).length ≤ k := by
  have h := List.length_filter_le p (List.range k)
  simpa using h

/-- Invariant of a loop that appends to a buffer, through a counter, the value
`f j` of every index `j` that passes a test `p`. -/
theorem collect_fold {α : Type} (p : Nat → Bool) (f : Nat → α) (buf : List α) (k : Nat) :
    ((List.range k).foldl
        (fun (acc : List α × Nat) j => if p j then (acc.1.set acc.2 (f j), acc.2 + 1) else acc)
        (buf, 0)).2 = ((List.range k).filter p).length ∧
      ((List.range k).foldl
        (fun (acc : List α × Nat) j => if p j then (acc.1.set acc.2 (f j), acc.2 + 1) else acc)
        (buf, 0)).1.length = buf.length ∧
      (k ≤ buf.length →
        ((List.range k).foldl
          (fun (acc : List α × Nat) j => if p j then (acc.1.set acc.2 (f j), acc.2 + 1) else acc)
          (buf, 0)).1.take ((List.range k).filter p).length = ((List.range k).filter p).map f) := by
  induction k with
  | zero => simp
  | succ k ih =>
    obtain ⟨h1, h2, h3⟩ := ih
    have hle := filter_range_length_le p k
    rw [List.range_succ, List.foldl_append, List.filter_append]
    simp only [List.foldl_cons, List.foldl_nil]
    cases hc : p k with
    | true =>
      have hf : List.filter p [k] = [k] := by simp [List.filter_cons, hc]
      rw [hf]
      simp only [if_true, List.length_append, List.length_singleton,
        List.length_set, List.map_append, List.map_cons, List.map_nil]
      refine ⟨by rw [h1], h2, ?_⟩
      intro hk
      have hk1 : k ≤ buf.length := by omega
      rw [h1, take_succ_set _ _ _ (by rw [h2]; omega), h3 hk1]
    | false =>
      have hf : List.filter p [k] = [] := by simp [List.filter_cons, hc]
      rw [hf]
      simp only [Bool.false_eq_true, if_false, List.append_nil]
      exact ⟨h1, h2, fun hk => h3 (by omega)⟩

/-- The inner loop of `update` is such a collecting loop. -/
theorem scanStep_eq (sqrtf : F → F) (g : Globals F) (boids : List (Boid F)) (i : Nat) :
    scanStep sqrtf g boids i =
      fun (acc : List (Boid F) × Nat) j =>
        if (decide (j ≠ i ∧
          Vector2Distance sqrtf (boids.getD j Boid.zero).pos (boids.getD i Boid.zero).pos
            < g.vision)) = true
        then (acc.1.set acc.2 (boids.getD j Boid.zero), acc.2 + 1) else acc := by
  funext acc j
  simp only [scanStep, decide_eq_true_eq]

end Scan
end Boids

namespace Boids
section Scan2
variable {F : Type} [LinearOrderedField F]

/-- The counter `visible` after the scan is the size of the neighbour set. -/
theorem scanVisible_count (sqrtf : F → F) (g : Globals F) (m : Memory F) (i : Nat) :
    (scanVisible sqrtf g m i).2 = (neighborsWithin sqrtf m.boids i g.vision).length := by
  unfold scanVisible neighborsWithin Memory.length
  rw [scanStep_eq]
  exact (collect_fold _ _ _ _).1

/-- The scan does not change the size of the buffer. -/
theorem scanVisible_length (sqrtf : F → F) (g : Globals F) (m : Memory F) (i : Nat) :
    (scanVisible sqrtf g m i).1.length = m.visibleBoids.length := by
  unfold scanVisible Memory.length
  rw [scanStep_eq]
  exact (collect_fold _ _ _ _).2.1

/-- The first `visible` cells of the buffer after the scan. -/
theorem scanVisible_take (sqrtf : F → F) (g : Globals F) (m : Memory F) (i : Nat)
    (hbuf : m.length ≤ m.visibleBoids.length) :
    (scanVisible sqrtf g m i).1.take (neighborsWithin sqrtf m.boids i g.vision).length =
      (neighborsWithin sqrtf m.boids i g.vision).map (fun j => m.boids.getD j Boid.zero) := by
  unfold scanVisible neighborsWithin Memory.length
  rw [scanStep_eq]
  exact (collect_fold _ _ _ _).2.2 hbuf

/-- The neighbour set has at most `length` elements. -/
theorem neighborsWithin_length_le (sqrtf : F → F) (boids : List (Boid F)) (i : Nat) (r : F) :
    (neighborsWithin sqrtf boids i r).length ≤ boids.length :=
  filter_range_length_le _ _

/-- The accumulation loops of `flyTowardsCenter` and `matchVelocity`, run on
the buffer that the scan filled, sum over the neighbour set. -/
theorem scanVisible_sum (sqrtf : F → F) (g : Globals F) (m : Memory F) (i : Nat)
    (hbuf : m.length ≤ m.visibleBoids.length) (f k : Boid F → F) :
    (List.range (scanVisible sqrtf g m i).2).foldl
      (fun (c : F × F) n =>
        (c.1 + f ((scanVisible sqrtf g m i).1.getD n Boid.zero),
         c.2 + k ((scanVisible sqrtf g m i).1.getD n Boid.zero))) (0, 0) =
    (((neighborsWithin sqrtf m.boids i g.vision).map
        (fun j => f (m.boids.getD j Boid.zero))).sum,
     ((neighborsWithin sqrtf m.boids i g.vision).map
        (fun j => k (m.boids.getD j Boid.zero))).sum) := by
  have hle : (neighborsWithin sqrtf m.boids i g.vision).length ≤
      (scanVisible sqrtf g m i).1.length := by
    rw [scanVisible_length]
    exact le_trans (neighborsWithin_length_le _ _ _ _) hbuf
  rw [scanVisible_count,
    foldl_range_getD (fun (c : F × F) b => (c.1 + f b, c.2 + k b)) _ Boid.zero _ hle,
    scanVisible_take sqrtf g m i hbuf, foldl_pair_sum]
  simp [List.map_map, Function.comp_def]

end Scan2
end Boids

namespace Boids
section Store
variable {F : Type} [LinearOrderedField F]

/-- Reading a cell of an array after a write. -/
theorem getD_set {α : Type} (l : List α) (i j : Nat) (a z : α) :
    (l.set i a).getD j z = if i = j ∧ i < l.length then a else l.getD j z := by
  simp only [List.getD_eq_getElem?_getD, List.getElem?_set]
  by_cases h : i = j
  · subst h
    by_cases h2 : i < l.length
    · simp [h2]
    · simp [h2, List.getElem?_eq_none (not_lt.mp h2)]
  · simp [h]

/-- Writing back the contents of a cell changes nothing. -/
theorem set_getD_self {α : Type} (l : List α) (i : Nat) (z : α) :
    l.set i (l.getD i z) = l := by
  by_cases h : i < l.length
  · apply List.ext_getElem?
    intro j
    rw [List.getElem?_set]
    by_cases hij : i = j
    · subst hij
      simp [h, List.getElem?_eq_getElem h]
    · simp [hij]
  · exact List.set_eq_of_length_le (not_lt.mp h)

/-- The distance of raymath is symmetric, whatever `sqrtf` computes. -/
theorem Vector2Distance_comm (sqrtf : F → F) (p q : Vector2 F) :
    Vector2Distance sqrtf p q = Vector2Distance sqrtf q p := by
  unfold Vector2Distance
  congr 1
  ring

/-- A loop that conditionally accumulates two sums is a sum over the indices
that pass the test. -/
theorem foldl_cond_sum (p : Nat → Prop) [DecidablePred p] (f k : Nat → F) (l : List Nat) :
    ∀ c : F × F,
      l.foldl (fun (mv : F × F) n => if p n then (mv.1 + f n, mv.2 + k n) else mv) c =
        (c.1 + ((l.filter (fun n => decide (p n))).map f).sum,
         c.2 + ((l.filter (fun n => decide (p n))).map k).sum) := by
  induction l with
  | nil => intro c; simp
  | cons a l ih =>
    intro c
    rw [List.foldl_cons, ih]
    by_cases h : p a
    · simp [List.filter_cons, h, add_assoc]
    · simp [List.filter_cons, h]

/-- The neighbour set only depends on the positions of the store. -/
theorem neighborsWithin_congr (sqrtf : F → F) (boids boids2 : List (Boid F)) (i : Nat) (r : F)
    (hlen : boids2.length = boids.length)
    (hpos : ∀ j, (boids2.getD j Boid.zero).pos = (boids.getD j Boid.zero).pos) :
    neighborsWithin sqrtf boids2 i r = neighborsWithin sqrtf boids i r := by
  unfold neighborsWithin
  rw [hlen]
  congr 1
  funext j
  rw [hpos j, hpos i]

end Store
end Boids

namespace Boids
section Steering
variable {F : Type} [LinearOrderedField F]

/-- The accumulation loop of `avoid` sums over the set of agents strictly within
`avoidDistance`. -/
theorem avoid_fold (sqrtf : F → F) (g : Globals F) (boids : List (Boid F)) (i : Nat) :
    (List.range boids.length).foldl
      (fun (mv : F × F) k =>
        let b := boids.getD k Boid.zero
        if i ≠ k then
          if Vector2Distance sqrtf (boids.getD i Boid.zero).pos b.pos < g.avoidDistance then
            (mv.1 + ((boids.getD i Boid.zero).pos.x - b.pos.x),
             mv.2 + ((boids.getD i Boid.zero).pos.y - b.pos.y))
          else mv
        else mv)
      (0, 0) =
    (((neighborsWithin sqrtf boids i g.avoidDistance).map
        (fun j => (boids.getD i Boid.zero).pos.x - (boids.getD j Boid.zero).pos.x)).sum,
     ((neighborsWithin sqrtf boids i g.avoidDistance).map
        (fun j => (boids.getD i Boid.zero).pos.y - (boids.getD j Boid.zero).pos.y)).sum) := by
  have hstep :
      (fun (mv : F × F) k =>
        let b := boids.getD k Boid.zero
        if i ≠ k then
          if Vector2Distance sqrtf (boids.getD i Boid.zero).pos b.pos < g.avoidDistance then
            (mv.1 + ((boids.getD i Boid.zero).pos.x - b.pos.x),
             mv.2 + ((boids.getD i Boid.zero).pos.y - b.pos.y))
          else mv
        else mv) =
      (fun (mv : F × F) n =>
        if n ≠ i ∧ Vector2Distance sqrtf (boids.getD n Boid.zero).pos
            (boids.getD i Boid.zero).pos < g.avoidDistance then
          (mv.1 + ((boids.getD i Boid.zero).pos.x - (boids.getD n Boid.zero).pos.x),
           mv.2 + ((boids.getD i Boid.zero).pos.y - (boids.getD n Boid.zero).pos.y))
        else mv) := by
    funext mv k
    simp only []
    rw [Vector2Distance_comm sqrtf (boids.getD i Boid.zero).pos]
    by_cases h1 : i = k
    · simp [h1]
    · have h2 : k ≠ i := fun h => h1 h.symm
      simp [h1, h2]
  rw [hstep, foldl_cond_sum]
  simp [neighborsWithin]

/-- The function `flyTowardsCenter` keeps the position. -/
theorem flyTowardsCenter_pos (g : Globals F) (vb : List (Boid F)) (boid : Boid F) (n : Nat) :
    (flyTowardsCenter g vb boid n).pos = boid.pos := by
  unfold flyTowardsCenter
  simp only []
  split_ifs <;> rfl

/-- The function `matchVelocity` keeps the position. -/
theorem matchVelocity_pos (g : Globals F) (vb : List (Boid F)) (boid : Boid F) (n : Nat) :
    (matchVelocity g vb boid n).pos = boid.pos := by
  unfold matchVelocity
  simp only []
  split_ifs <;> rfl

/-- Overwriting cell `i` by a boid at the same position keeps all positions. -/
theorem getD_set_pos (boids : List (Boid F)) (i : Nat) (b : Boid F)
    (hb : b.pos = (boids.getD i Boid.zero).pos) (j : Nat) :
    ((boids.set i b).getD j Boid.zero).pos = (boids.getD j Boid.zero).pos := by
  rw [getD_set]
  split_ifs with h
  · rw [hb, h.1]
  · rfl

/-- Closed form of `flyTowardsCenter` on the buffer left by the scan, for a
non-empty neighbour set. -/
theorem flyTowardsCenter_formula (sqrtf : F → F) (g : Globals F) (m : Memory F) (i : Nat)
    (hbuf : m.length ≤ m.visibleBoids.length)
    (hS : neighborsWithin sqrtf m.boids i g.vision ≠ []) (boid : Boid F) :
    flyTowardsCenter g (scanVisible sqrtf g m i).1 boid (scanVisible sqrtf g m i).2 =
      { pos := boid.pos
        velocity := Vector2Add boid.velocity
          (Vector2Scale
            (Vector2Subtract (meanPosition m.boids (neighborsWithin sqrtf m.boids i g.vision))
              boid.pos)
            g.centeringFactor) } := by
  have hne : (scanVisible sqrtf g m i).2 ≠ 0 := by
    rw [scanVisible_count]
    exact fun h => hS (List.length_eq_zero.mp h)
  unfold flyTowardsCenter
  rw [scanVisible_sum sqrtf g m i hbuf (fun b => b.pos.x) (fun b => b.pos.y)]
  rw [scanVisible_count] at hne
  simp only [hne, ne_eq, not_false_eq_true, if_true, mean, Vector2Add, Vector2Scale,
    Vector2Subtract, meanPosition, List.length_map, scanVisible_count]

/-- Closed form of `matchVelocity` on the buffer left by the scan, for a
non-empty neighbour set. -/
theorem matchVelocity_formula (sqrtf : F → F) (g : Globals F) (m : Memory F) (i : Nat)
    (hbuf : m.length ≤ m.visibleBoids.length)
    (hS : neighborsWithin sqrtf m.boids i g.vision ≠ []) (boid : Boid F) :
    matchVelocity g (scanVisible sqrtf g m i).1 boid (scanVisible sqrtf g m i).2 =
      { pos := boid.pos
        velocity := Vector2Add boid.velocity
          (Vector2Scale
            (Vector2Subtract (meanVelocity m.boids (neighborsWithin sqrtf m.boids i g.vision))
              boid.velocity)
            g.matchFactor) } := by
  have hne : (scanVisible sqrtf g m i).2 ≠ 0 := by
    rw [scanVisible_count]
    exact fun h => hS (List.length_eq_zero.mp h)
  unfold matchVelocity
  rw [scanVisible_sum sqrtf g m i hbuf (fun b => b.velocity.x) (fun b => b.velocity.y)]
  rw [scanVisible_count] at hne
  simp only [hne, ne_eq, not_false_eq_true, if_true, mean, Vector2Add, Vector2Scale,
    Vector2Subtract, meanVelocity, List.length_map, scanVisible_count]

/-- Closed form of `avoid`. -/
theorem avoid_formula (sqrtf : F → F) (g : Globals F) (boids : List (Boid F)) (i : Nat) :
    avoid sqrtf g boids i =
      boids.set i
        { pos := (boids.getD i Boid.zero).pos
          velocity := Vector2Add (boids.getD i Boid.zero).velocity
            (Vector2Scale (sumOffsets boids i (neighborsWithin sqrtf boids i g.avoidDistance))
              g.avoidFactor) } := by
  unfold avoid
  simp only []
  rw [avoid_fold]
  rfl

/-- The boid that `update` passes to `matchVelocity`: the contents of
`boids[i]` after `flyTowardsCenter` and `avoid`. -/
theorem steer_atCall (sqrtf : F → F) (g : Globals F) (m : Memory F) (i : Nat)
    (hi : i < m.length) (b1 : Boid F) (hb1 : b1.pos = (m.boids.getD i Boid.zero).pos) :
    (avoid sqrtf g (m.boids.set i b1) i).getD i Boid.zero =
      { pos := (m.boids.getD i Boid.zero).pos
        velocity := Vector2Add b1.velocity
          (Vector2Scale (sumOffsets m.boids i (neighborsWithin sqrtf m.boids i g.avoidDistance))
            g.avoidFactor) } := by
  have hi2 : i < m.boids.length := hi
  have hpos := getD_set_pos m.boids i b1 hb1
  have hT := neighborsWithin_congr sqrtf m.boids (m.boids.set i b1) i g.avoidDistance
    (by simp) hpos
  have hself : (m.boids.set i b1).getD i Boid.zero = b1 := by
    rw [getD_set]; simp [hi2]
  rw [avoid_formula, getD_set]
  simp only [List.length_set, hi2, and_self, if_true, hT, hself, hb1]
  simp only [sumOffsets, hpos]

end Steering
end Boids
namespace Boids
section Sqrt
variable {F : Type} [LinearOrderedField F]

/-- The squared magnitude is non-negative. -/
theorem normSq_nonneg (v : Vector2 F) : 0 ≤ normSq v := by
  unfold normSq
  nlinarith [mul_self_nonneg v.x, mul_self_nonneg v.y]

/-- The length of raymath is `sqrtf` of the squared magnitude. -/
theorem Vector2Length_eq (sqrtf : F → F) (v : Vector2 F) :
    Vector2Length sqrtf v = sqrtf (normSq v) := rfl

/-- An exact square root is below a positive bound exactly when its argument is
below the square of the bound. -/
theorem sqrtf_lt_iff {sqrtf : F → F} (hs : IsSqrt sqrtf) {x c : F} (hx : 0 ≤ x) (hc : 0 < c) :
    sqrtf x < c ↔ x < c * c := by
  obtain ⟨h0, h1⟩ := hs x hx
  constructor
  · intro h
    nlinarith
  · intro h
    by_contra hcon
    have hle : c ≤ sqrtf x := not_lt.mp hcon
    nlinarith

/-- An exact square root is above a non-negative bound exactly when its
argument is above the square of the bound. -/
theorem lt_sqrtf_iff {sqrtf : F → F} (hs : IsSqrt sqrtf) {x c : F} (hx : 0 ≤ x) (hc : 0 ≤ c) :
    c < sqrtf x ↔ c * c < x := by
  obtain ⟨h0, h1⟩ := hs x hx
  constructor
  · intro h
    nlinarith
  · intro h
    by_contra hcon
    have hle : sqrtf x ≤ c := not_lt.mp hcon
    nlinarith

/-- An exact square root of a square of a non-negative number. -/
theorem sqrtf_mul_self {sqrtf : F → F} (hs : IsSqrt sqrtf) {s : F} (h : 0 ≤ s) :
    sqrtf (s * s) = s := by
  obtain ⟨h0, h1⟩ := hs (s * s) (mul_self_nonneg s)
  nlinarith [mul_self_eq_mul_self_iff.mp h1]

/-- The square root of the real numbers is exact. -/
theorem isSqrt_real : IsSqrt Real.sqrt := by
  intro x hx
  exact ⟨Real.sqrt_nonneg x, Real.mul_self_sqrt hx⟩

/-- The distance of raymath against a positive bound, for an exact `sqrtf`. -/
theorem Vector2Distance_lt_iff {sqrtf : F → F} (hs : IsSqrt sqrtf) (p q : Vector2 F) {c : F}
    (hc : 0 < c) :
    Vector2Distance sqrtf p q < c ↔
      (p.x - q.x) * (p.x - q.x) + (p.y - q.y) * (p.y - q.y) < c * c := by
  unfold Vector2Distance
  exact sqrtf_lt_iff hs (by nlinarith [mul_self_nonneg (p.x - q.x), mul_self_nonneg (p.y - q.y)]) hc

end Sqrt
end Boids
namespace Boids
section Speed
variable {F : Type} [LinearOrderedField F]

/-- Normalising a vector of positive length and scaling by `s` is scaling by
`s / |v|`. -/
theorem Vector2Normalize_scale (sqrtf : F → F) (v : Vector2 F) (s : F)
    (hpos : 0 < Vector2Length sqrtf v) :
    Vector2Scale (Vector2Normalize sqrtf v) s =
      Vector2Scale v (s / Vector2Length sqrtf v) := by
  have hpos2 : 0 < sqrtf (v.x * v.x + v.y * v.y) := hpos
  simp only [Vector2Normalize, Vector2Scale, Vector2Length, gt_iff_lt, hpos2, if_true]
  congr 1 <;> ring

/-- Normalising a vector whose length is not positive gives the zero vector. -/
theorem Vector2Normalize_scale_zero (sqrtf : F → F) (v : Vector2 F) (s : F)
    (hpos : ¬ 0 < Vector2Length sqrtf v) :
    Vector2Scale (Vector2Normalize sqrtf v) s = Vector2Zero := by
  have hpos2 : ¬ 0 < sqrtf (v.x * v.x + v.y * v.y) := hpos
  simp [Vector2Normalize, Vector2Scale, Vector2Zero, hpos2]

/-- The length of a vector rescaled by `s / |v|` is `s`, for an exact `sqrtf`. -/
theorem Vector2Length_rescale {sqrtf : F → F} (hs : IsSqrt sqrtf) (v : Vector2 F) (s : F)
    (hs0 : 0 ≤ s) (hpos : 0 < Vector2Length sqrtf v) :
    Vector2Length sqrtf (Vector2Scale v (s / Vector2Length sqrtf v)) = s := by
  have hn : 0 ≤ v.x * v.x + v.y * v.y := normSq_nonneg v
  obtain ⟨-, h1⟩ := hs _ hn
  have hpos2 : 0 < sqrtf (v.x * v.x + v.y * v.y) := hpos
  have hne : sqrtf (v.x * v.x + v.y * v.y) ≠ 0 := ne_of_gt hpos2
  simp only [Vector2Length, Vector2Scale]
  have : v.x * (s / sqrtf (v.x * v.x + v.y * v.y)) * (v.x * (s / sqrtf (v.x * v.x + v.y * v.y))) +
      v.y * (s / sqrtf (v.x * v.x + v.y * v.y)) * (v.y * (s / sqrtf (v.x * v.x + v.y * v.y))) =
      s * s := by
    field_simp
    nlinarith [h1]
  rw [this]
  exact sqrtf_mul_self hs hs0

/-- The speed limiter on a velocity of positive length (supporting lemma of the
claims on `checkSpeed`). -/
theorem checkSpeed_of_pos {sqrtf : F → F} (hs : IsSqrt sqrtf) (g : Globals F) (boid : Boid F)
    (hmin : 0 < g.speedLimitMin) (hle : g.speedLimitMin ≤ g.speedLimitMax)
    (hpos : 0 < Vector2Length sqrtf boid.velocity) :
    (checkSpeed sqrtf g boid).pos = boid.pos ∧
    (g.speedLimitMin ≤ Vector2Length sqrtf boid.velocity →
      Vector2Length sqrtf boid.velocity ≤ g.speedLimitMax → checkSpeed sqrtf g boid = boid) ∧
    (g.speedLimitMax < Vector2Length sqrtf boid.velocity →
      (checkSpeed sqrtf g boid).velocity =
        Vector2Scale boid.velocity (g.speedLimitMax / Vector2Length sqrtf boid.velocity) ∧
      0 ≤ g.speedLimitMax / Vector2Length sqrtf boid.velocity ∧
      Vector2Length sqrtf (checkSpeed sqrtf g boid).velocity = g.speedLimitMax) ∧
    (Vector2Length sqrtf boid.velocity < g.speedLimitMin →
      (checkSpeed sqrtf g boid).velocity =
        Vector2Scale boid.velocity (g.speedLimitMin / Vector2Length sqrtf boid.velocity) ∧
      0 ≤ g.speedLimitMin / Vector2Length sqrtf boid.velocity ∧
      Vector2Length sqrtf (checkSpeed sqrtf g boid).velocity = g.speedLimitMin) ∧
    g.speedLimitMin ≤ Vector2Length sqrtf (checkSpeed sqrtf g boid).velocity ∧
    Vector2Length sqrtf (checkSpeed sqrtf g boid).velocity ≤ g.speedLimitMax := by
  have hmax : 0 < g.speedLimitMax := lt_of_lt_of_le hmin hle
  by_cases h1 : g.speedLimitMax < Vector2Length sqrtf boid.velocity
  · have hv : (checkSpeed sqrtf g boid).velocity =
        Vector2Scale boid.velocity (g.speedLimitMax / Vector2Length sqrtf boid.velocity) := by
      simp only [checkSpeed, gt_iff_lt, h1, if_true]
      exact Vector2Normalize_scale sqrtf _ _ hpos
    have hl := Vector2Length_rescale hs boid.velocity g.speedLimitMax hmax.le hpos
    refine ⟨by simp [checkSpeed, h1], fun h2 h3 => absurd h1 (not_lt.mpr h3),
      fun _ => ⟨hv, div_nonneg hmax.le hpos.le, by rw [hv, hl]⟩,
      fun h4 => absurd (lt_trans h4 (lt_of_le_of_lt hle h1)) (lt_irrefl _), ?_, ?_⟩
    · rw [hv, hl]; exact hle
    · rw [hv, hl]
  · by_cases h2 : Vector2Length sqrtf boid.velocity < g.speedLimitMin
    · have hv : (checkSpeed sqrtf g boid).velocity =
          Vector2Scale boid.velocity (g.speedLimitMin / Vector2Length sqrtf boid.velocity) := by
        simp only [checkSpeed, gt_iff_lt, h1, h2, if_true, if_false]
        exact Vector2Normalize_scale sqrtf _ _ hpos
      have hl := Vector2Length_rescale hs boid.velocity g.speedLimitMin hmin.le hpos
      refine ⟨by simp [checkSpeed, h1, h2], fun h3 _ => absurd h2 (not_lt.mpr h3),
        fun h4 => absurd h4 h1, fun _ => ⟨hv, div_nonneg hmin.le hpos.le, by rw [hv, hl]⟩, ?_, ?_⟩
      · rw [hv, hl]
      · rw [hv, hl]; exact hle
    · have he : checkSpeed sqrtf g boid = boid := by
        simp [checkSpeed, h1, h2]
      refine ⟨by rw [he], fun _ _ => he, fun h4 => absurd h4 h1, fun h4 => absurd h4 h2, ?_, ?_⟩
      · rw [he]; exact not_lt.mp h2
      · rw [he]; exact not_lt.mp h1

end Speed
end Boids
namespace Boids
section Frame
variable {F : Type} [LinearOrderedField F]

/-- The function `avoid` keeps the number of cells. -/
theorem avoid_length (sqrtf : F → F) (g : Globals F) (boids : List (Boid F)) (i : Nat) :
    (avoid sqrtf g boids i).length = boids.length := by
  simp [avoid]

/-- The function `avoid` only writes cell `i`. -/
theorem avoid_getD_ne (sqrtf : F → F) (g : Globals F) (boids : List (Boid F)) (i j : Nat)
    (h : j ≠ i) : (avoid sqrtf g boids i).getD j Boid.zero = boids.getD j Boid.zero := by
  unfold avoid
  simp only []
  rw [getD_set]
  have : ¬ (i = j ∧ i < boids.length) := fun hc => h hc.1.symm
  simp only [this, if_false]

/-- Steering keeps the number of cells. -/
theorem steer_length (sqrtf : F → F) (g : Globals F) (m : Memory F) (i : Nat) :
    (steer sqrtf g m i).boids.length = m.boids.length := by
  simp [steer, avoid_length]

/-- Steering only writes cell `i` of `boids`. -/
theorem steer_getD_ne (sqrtf : F → F) (g : Globals F) (m : Memory F) (i j : Nat) (h : j ≠ i) :
    (steer sqrtf g m i).boids.getD j Boid.zero = m.boids.getD j Boid.zero := by
  have hn : ∀ n : Nat, ¬ (i = j ∧ i < n) := fun n hc => h hc.1.symm
  simp only [steer]
  rw [getD_set, if_neg (hn _), avoid_getD_ne _ _ _ _ _ h, getD_set, if_neg (hn _)]

/-- One iteration of the loop of `update` keeps the number of cells. -/
theorem updateBoid_length (sqrtf : F → F) (g : Globals F) (dt : F) (m : Memory F) (i : Nat) :
    (updateBoid sqrtf g dt m i).boids.length = m.boids.length := by
  simp [updateBoid, steer_length]

/-- One iteration of the loop of `update` only writes cell `i` of `boids`. -/
theorem updateBoid_getD_ne (sqrtf : F → F) (g : Globals F) (dt : F) (m : Memory F) (i j : Nat)
    (h : j ≠ i) :
    (updateBoid sqrtf g dt m i).boids.getD j Boid.zero = m.boids.getD j Boid.zero := by
  have hn : ∀ n : Nat, ¬ (i = j ∧ i < n) := fun n hc => h hc.1.symm
  simp only [updateBoid]
  rw [getD_set, if_neg (hn _), steer_getD_ne _ _ _ _ _ h]

/-- Iterations for indices other than `j` keep cell `j` and the number of
cells. -/
theorem foldl_updateBoid_frame (sqrtf : F → F) (g : Globals F) (dt : F) (j : Nat) :
    ∀ (l : List Nat) (m : Memory F), j ∉ l →
      (l.foldl (updateBoid sqrtf g dt) m).boids.getD j Boid.zero = m.boids.getD j Boid.zero ∧
      (l.foldl (updateBoid sqrtf g dt) m).boids.length = m.boids.length := by
  intro l
  induction l with
  | nil => intro m _; simp
  | cons a l ih =>
    intro m hj
    have ha : j ≠ a := fun h => hj (by simp [h])
    have hl : j ∉ l := fun h => hj (by simp [h])
    rw [List.foldl_cons]
    obtain ⟨h1, h2⟩ := ih (updateBoid sqrtf g dt m a) hl
    exact ⟨by rw [h1, updateBoid_getD_ne _ _ _ _ _ _ ha], by rw [h2, updateBoid_length]⟩

/-- The indices below `n` are those below `i`, then `i`, then those above. -/
theorem range_split (n i : Nat) (hi : i < n) :
    List.range n = List.range i ++ i :: List.range' (i + 1) (n - (i + 1)) := by
  rw [List.range_eq_range', List.range_eq_range']
  have h1 : i :: List.range' (i + 1) (n - (i + 1)) = List.range' i (n - i) := by
    have : n - i = (n - (i + 1)) + 1 := by omega
    rw [this, List.range'_succ]
  rw [h1]
  have h2 := List.range'_append 0 i (n - i) 1
  simp only [Nat.zero_add, Nat.one_mul] at h2
  rw [h2]
  congr 1
  omega

/-- The final contents of cell `i` after the loop of `update` are those written
by iteration `i`, which starts from a store whose cell `i` is still the
initial one. -/
theorem updateLoop_getD (sqrtf : F → F) (g : Globals F) (dt : F) (m : Memory F) (i : Nat)
    (hi : i < m.length) :
    ((List.range m.length).foldl (updateBoid sqrtf g dt) m).boids.getD i Boid.zero =
      (updateBoid sqrtf g dt ((List.range i).foldl (updateBoid sqrtf g dt) m) i).boids.getD i
        Boid.zero ∧
    ((List.range i).foldl (updateBoid sqrtf g dt) m).boids.getD i Boid.zero =
      m.boids.getD i Boid.zero ∧
    ((List.range i).foldl (updateBoid sqrtf g dt) m).boids.length = m.boids.length := by
  have hb := foldl_updateBoid_frame sqrtf g dt i (List.range i) m (by simp)
  refine ⟨?_, hb.1, hb.2⟩
  rw [range_split m.length i hi, List.foldl_append, List.foldl_cons]
  exact (foldl_updateBoid_frame sqrtf g dt i _ _ (by
    simp only [List.mem_range'_1]
    omega)).1

end Frame
end Boids
namespace Boids
section Cell
variable {F : Type} [LinearOrderedField F]

/-- The contents of `boids[i]` after the steering of agent `i`. -/
theorem steer_cell (sqrtf : F → F) (g : Globals F) (m : Memory F) (i : Nat)
    (hi : i < m.length) (hbuf : m.length ≤ m.visibleBoids.length) :
    (steer sqrtf g m i).boids.getD i Boid.zero =
      ⟨(m.boids.getD i Boid.zero).pos, steeredVelocity sqrtf g m.boids i⟩ := by
  have hi2 : i < m.boids.length := hi
  simp only [steer]
  rw [getD_set]
  simp only [avoid_length, List.length_set, hi2, and_self, if_true]
  rw [steer_atCall sqrtf g m i hi _ (flyTowardsCenter_pos _ _ _ _)]
  by_cases hS : neighborsWithin sqrtf m.boids i g.vision = []
  · have h0 : (scanVisible sqrtf g m i).2 = 0 := by
      rw [scanVisible_count, hS]; rfl
    rw [h0]
    simp [steeredVelocity, hS, flyTowardsCenter, matchVelocity]
  · rw [matchVelocity_formula sqrtf g m i hbuf hS, flyTowardsCenter_formula sqrtf g m i hbuf hS]
    simp [steeredVelocity, hS]

/-- The store after iteration `i` of the loop of `update`: cell `i` holds the
steered boid passed through `checkMargins`, `checkSpeed` and the position
update; the buffer is the one left by the scan. -/
theorem updateBoid_eq (sqrtf : F → F) (g : Globals F) (dt : F) (m : Memory F) (i : Nat)
    (hi : i < m.length) (hbuf : m.length ≤ m.visibleBoids.length) :
    (updateBoid sqrtf g dt m i).boids =
      m.boids.set i
        (let boid := checkSpeed sqrtf g
            (checkMargins g ⟨(m.boids.getD i Boid.zero).pos, steeredVelocity sqrtf g m.boids i⟩)
         { boid with pos := Vector2Add boid.pos (Vector2Scale boid.velocity (dt * 60)) }) ∧
    (updateBoid sqrtf g dt m i).visibleBoids.length = m.visibleBoids.length := by
  constructor
  · have h := steer_cell sqrtf g m i hi hbuf
    simp only [updateBoid]
    rw [h]
    simp only [steer, avoid_formula, List.set_set]
  · simp only [updateBoid, steer]
    exact scanVisible_length sqrtf g m i

end Cell
end Boids
namespace Boids
section Concrete

/-- The margin corners of the default globals. -/
theorem defaultGlobals_margins {F : Type} [LinearOrderedField F] [FloorRing F] :
    (defaultGlobals : Globals F).marginStart = ⟨200, 200⟩ ∧
    (defaultGlobals : Globals F).marginEnd = ⟨1000, 600⟩ := by
  simp only [defaultGlobals, setMargin, windowWidth, windowHeight]
  norm_num

/-- The scalar tunables of the default globals. -/
theorem defaultGlobals_scalars {F : Type} [LinearOrderedField F] [FloorRing F] :
    (defaultGlobals : Globals F).marginTurnFactor = 1 ∧
    (defaultGlobals : Globals F).speedLimitMin = 1 ∧
    (defaultGlobals : Globals F).speedLimitMax = 10 ∧
    (defaultGlobals : Globals F).vision = 75 ∧
    (defaultGlobals : Globals F).centeringFactor = 0.005 ∧
    (defaultGlobals : Globals F).avoidDistance = 20 ∧
    (defaultGlobals : Globals F).avoidFactor = 0.05 ∧
    (defaultGlobals : Globals F).matchFactor = 0.05 := by
  simp [defaultGlobals, setMargin, initialGlobals]

/-- Steering of agent A in the scenario. -/
theorem scenario_steer0 :
    steeredVelocity Real.sqrt defaultGlobals (scenario : Memory ℝ).boids 0 = ⟨0.4725, 0⟩ := by
  obtain ⟨s1, s2, s3, s4, s5, s6, s7, s8⟩ := @defaultGlobals_scalars ℝ _ _
  have d1 : Vector2Distance Real.sqrt (⟨110, 100⟩ : Vector2 ℝ) ⟨100, 100⟩ < 75 := by
    rw [Vector2Distance_lt_iff isSqrt_real _ _ (by norm_num)]; norm_num
  have d2 : Vector2Distance Real.sqrt (⟨110, 100⟩ : Vector2 ℝ) ⟨100, 100⟩ < 20 := by
    rw [Vector2Distance_lt_iff isSqrt_real _ _ (by norm_num)]; norm_num
  have hS : neighborsWithin Real.sqrt (scenario : Memory ℝ).boids 0 75 = [1] := by
    simp [neighborsWithin, scenario, List.range_succ, List.filter, d1]
  have hT : neighborsWithin Real.sqrt (scenario : Memory ℝ).boids 0 20 = [1] := by
    simp [neighborsWithin, scenario, List.range_succ, List.filter, d2]
  simp only [steeredVelocity, s4, s5, s6, s7, s8, hS, hT]
  simp [scenario, meanPosition, meanVelocity, sumOffsets, mean, Vector2Add, Vector2Scale,
    Vector2Subtract]
  norm_num


/-- A comparison of a length against a positive bound, for the real square
root. -/
theorem real_length_lt (v : Vector2 ℝ) (c : ℝ) (hc : 0 < c) :
    Vector2Length Real.sqrt v < c ↔ v.x * v.x + v.y * v.y < c * c :=
  sqrtf_lt_iff isSqrt_real (normSq_nonneg v) hc

/-- A comparison of a length against a non-negative bound, for the real square
root. -/
theorem real_lt_length (v : Vector2 ℝ) (c : ℝ) (hc : 0 ≤ c) :
    c < Vector2Length Real.sqrt v ↔ c * c < v.x * v.x + v.y * v.y :=
  lt_sqrtf_iff isSqrt_real (normSq_nonneg v) hc

/-- Iteration 0 of the loop of `update` in the scenario. -/
theorem scenario_step0 :
    (updateBoid Real.sqrt defaultGlobals (1 / 60) (scenario : Memory ℝ) 0).boids =
      [⟨⟨101.4725, 101⟩, ⟨1.4725, 1⟩⟩, ⟨⟨110, 100⟩, ⟨-1, 0⟩⟩] := by
  obtain ⟨s1, s2, s3, s4, s5, s6, s7, s8⟩ := @defaultGlobals_scalars ℝ _ _
  obtain ⟨m1, m2⟩ := @defaultGlobals_margins ℝ _ _
  have h := (updateBoid_eq Real.sqrt defaultGlobals (1 / 60) (scenario : Memory ℝ) 0
    (by simp [scenario, Memory.length]) (by simp [scenario, Memory.length])).1
  rw [h, scenario_steer0]
  have hm : checkMargins (defaultGlobals : Globals ℝ)
      ⟨((scenario : Memory ℝ).boids.getD 0 Boid.zero).pos, ⟨0.4725, 0⟩⟩ =
      ⟨⟨100, 100⟩, ⟨1.4725, 1⟩⟩ := by
    simp [checkMargins, m1, m2, s1, scenario]
    norm_num
  have hc : checkSpeed Real.sqrt (defaultGlobals : Globals ℝ) ⟨⟨100, 100⟩, ⟨1.4725, 1⟩⟩ =
      ⟨⟨100, 100⟩, ⟨1.4725, 1⟩⟩ := by
    have c1 : ¬ (10 < Vector2Length Real.sqrt (⟨1.4725, 1⟩ : Vector2 ℝ)) := by
      rw [real_lt_length _ _ (by norm_num)]; norm_num
    have c2 : ¬ (Vector2Length Real.sqrt (⟨1.4725, 1⟩ : Vector2 ℝ) < 1) := by
      rw [real_length_lt _ _ (by norm_num)]; norm_num
    simp [checkSpeed, s2, s3, c1, c2]
  rw [hm, hc]
  simp [scenario, Vector2Add, Vector2Scale]
  norm_num

/-- Steering of agent B in the scenario, after agent A has moved. -/
theorem scenario_steer1 :
    steeredVelocity Real.sqrt defaultGlobals
      ([⟨⟨101.4725, 101⟩, ⟨1.4725, 1⟩⟩, ⟨⟨110, 100⟩, ⟨-1, 0⟩⟩] : List (Boid ℝ)) 1 =
      ⟨-0.511824375, 0.00725⟩ := by
  obtain ⟨s1, s2, s3, s4, s5, s6, s7, s8⟩ := @defaultGlobals_scalars ℝ _ _
  have d1 : Vector2Distance Real.sqrt (⟨101.4725, 101⟩ : Vector2 ℝ) ⟨110, 100⟩ < 75 := by
    rw [Vector2Distance_lt_iff isSqrt_real _ _ (by norm_num)]; norm_num
  have d2 : Vector2Distance Real.sqrt (⟨101.4725, 101⟩ : Vector2 ℝ) ⟨110, 100⟩ < 20 := by
    rw [Vector2Distance_lt_iff isSqrt_real _ _ (by norm_num)]; norm_num
  have hS : neighborsWithin Real.sqrt
      ([⟨⟨101.4725, 101⟩, ⟨1.4725, 1⟩⟩, ⟨⟨110, 100⟩, ⟨-1, 0⟩⟩] : List (Boid ℝ)) 1 75 = [0] := by
    simp [neighborsWithin, List.range_succ, List.filter, d1]
  have hT : neighborsWithin Real.sqrt
      ([⟨⟨101.4725, 101⟩, ⟨1.4725, 1⟩⟩, ⟨⟨110, 100⟩, ⟨-1, 0⟩⟩] : List (Boid ℝ)) 1 20 = [0] := by
    simp [neighborsWithin, List.range_succ, List.filter, d2]
  simp only [steeredVelocity, s4, s5, s6, s7, s8, hS, hT]
  simp [meanPosition, meanVelocity, sumOffsets, mean, Vector2Add, Vector2Scale,
    Vector2Subtract]
  norm_num

/-- The store after one `update` of the concrete scenario of the
specification. -/
theorem scenario_update (rs : Nat → ℝ) :
    (update Real.sqrt defaultGlobals false rs (1 / 60) (scenario : Memory ℝ)).boids =
      [⟨⟨101.4725, 101⟩, ⟨1.4725, 1⟩⟩,
       ⟨⟨110.488175625, 101.00725⟩, ⟨0.488175625, 1.00725⟩⟩] := by
  obtain ⟨s1, s2, s3, s4, s5, s6, s7, s8⟩ := @defaultGlobals_scalars ℝ _ _
  obtain ⟨m1, m2⟩ := @defaultGlobals_margins ℝ _ _
  have h0 := scenario_step0
  have hlen : (updateBoid Real.sqrt defaultGlobals (1 / 60) (scenario : Memory ℝ) 0).length = 2 := by
    unfold Memory.length
    rw [h0]
    rfl
  have hbuf : (updateBoid Real.sqrt defaultGlobals (1 / 60)
      (scenario : Memory ℝ) 0).visibleBoids.length = 2 := by
    rw [(updateBoid_eq Real.sqrt defaultGlobals (1 / 60) (scenario : Memory ℝ) 0
      (by simp [scenario, Memory.length]) (by simp [scenario, Memory.length])).2]
    simp [scenario]
  have h := (updateBoid_eq Real.sqrt defaultGlobals (1 / 60)
    (updateBoid Real.sqrt defaultGlobals (1 / 60) (scenario : Memory ℝ) 0) 1
    (by rw [hlen]; decide) (by rw [hlen, hbuf])).1
  have hu : (update Real.sqrt defaultGlobals false rs (1 / 60) (scenario : Memory ℝ)) =
      updateBoid Real.sqrt defaultGlobals (1 / 60)
        (updateBoid Real.sqrt defaultGlobals (1 / 60) (scenario : Memory ℝ) 0) 1 := by
    simp [update, Memory.length, scenario, List.range_succ]
  rw [hu, h, h0, scenario_steer1]
  have hm : checkMargins (defaultGlobals : Globals ℝ)
      ⟨(([⟨⟨101.4725, 101⟩, ⟨1.4725, 1⟩⟩, ⟨⟨110, 100⟩, ⟨-1, 0⟩⟩] : List (Boid ℝ)).getD 1
        Boid.zero).pos, ⟨-0.511824375, 0.00725⟩⟩ =
      ⟨⟨110, 100⟩, ⟨0.488175625, 1.00725⟩⟩ := by
    simp [checkMargins, m1, m2, s1]
    norm_num
  have hc : checkSpeed Real.sqrt (defaultGlobals : Globals ℝ)
      ⟨⟨110, 100⟩, ⟨0.488175625, 1.00725⟩⟩ = ⟨⟨110, 100⟩, ⟨0.488175625, 1.00725⟩⟩ := by
    have c1 : ¬ (10 < Vector2Length Real.sqrt (⟨0.488175625, 1.00725⟩ : Vector2 ℝ)) := by
      rw [real_lt_length _ _ (by norm_num)]; norm_num
    have c2 : ¬ (Vector2Length Real.sqrt (⟨0.488175625, 1.00725⟩ : Vector2 ℝ) < 1) := by
      rw [real_length_lt _ _ (by norm_num)]; norm_num
    simp [checkSpeed, s2, s3, c1, c2]
  rw [hm, hc]
  simp [Vector2Add, Vector2Scale]
  norm_num

end Concrete
end Boids
namespace Boids
section Neutral
variable {F : Type} [LinearOrderedField F]

/-- With a zero centering factor `flyTowardsCenter` changes nothing. -/
theorem flyTowardsCenter_neutral (g : Globals F) (hc : g.centeringFactor = 0)
    (vb : List (Boid F)) (boid : Boid F) (n : Nat) : flyTowardsCenter g vb boid n = boid := by
  unfold flyTowardsCenter
  simp only [hc, mul_zero, add_zero]
  split_ifs <;> rfl

/-- With a zero match factor `matchVelocity` changes nothing. -/
theorem matchVelocity_neutral (g : Globals F) (hc : g.matchFactor = 0)
    (vb : List (Boid F)) (boid : Boid F) (n : Nat) : matchVelocity g vb boid n = boid := by
  unfold matchVelocity
  simp only [hc, mul_zero, add_zero]
  split_ifs <;> rfl

/-- With a zero avoid factor `avoid` changes nothing. -/
theorem avoid_neutral (sqrtf : F → F) (g : Globals F) (hc : g.avoidFactor = 0)
    (boids : List (Boid F)) (i : Nat) : avoid sqrtf g boids i = boids := by
  unfold avoid
  simp only [hc, mul_zero, add_zero]
  exact set_getD_self boids i Boid.zero

/-- With the three behaviour factors zero, steering leaves `boids` as it is. -/
theorem steer_neutral (sqrtf : F → F) (g : Globals F) (hc : g.centeringFactor = 0)
    (ha : g.avoidFactor = 0) (hm : g.matchFactor = 0) (m : Memory F) (i : Nat) :
    (steer sqrtf g m i).boids = m.boids := by
  simp only [steer, flyTowardsCenter_neutral g hc, matchVelocity_neutral g hm,
    avoid_neutral sqrtf g ha, set_getD_self]

/-- With the three behaviour factors zero, the velocity of agent `i` after
`update` (no reset key) is its initial velocity passed through `checkMargins`
and `checkSpeed`. -/
theorem update_neutral_velocity (sqrtf : F → F) (g : Globals F) (hc : g.centeringFactor = 0)
    (ha : g.avoidFactor = 0) (hm : g.matchFactor = 0) (rs : Nat → F) (dt : F) (m : Memory F)
    (i : Nat) (hi : i < m.length) :
    ((update sqrtf g false rs dt m).boids.getD i Boid.zero).velocity =
      (checkSpeed sqrtf g (checkMargins g (m.boids.getD i Boid.zero))).velocity := by
  obtain ⟨h1, h2, h3⟩ := updateLoop_getD sqrtf g dt m i hi
  have hi3 : i < ((List.range i).foldl (updateBoid sqrtf g dt) m).boids.length := by
    rw [h3]; exact hi
  simp only [update, Bool.false_eq_true, if_false]
  rw [h1]
  simp only [updateBoid, steer_neutral sqrtf g hc ha hm]
  rw [getD_set, h2]
  simp only [hi3, and_self, if_true]

/-- The effect of `checkMargins` on a boid in the low-x margin band whose `y`
is inside the inner rectangle. -/
theorem checkMargins_low_x (g : Globals F) (boid : Boid F)
    (hx : boid.pos.x < g.marginStart.x) (hx2 : boid.pos.x ≤ g.marginEnd.x)
    (hy1 : g.marginStart.y ≤ boid.pos.y) (hy2 : boid.pos.y ≤ g.marginEnd.y) :
    checkMargins g boid =
      ⟨boid.pos, ⟨boid.velocity.x + g.marginTurnFactor, boid.velocity.y⟩⟩ := by
  rcases boid with ⟨⟨px, py⟩, ⟨vx, vy⟩⟩
  simp only at hx hx2 hy1 hy2
  simp [checkMargins, hx, not_lt.mpr hx2, not_lt.mpr hy1, not_lt.mpr hy2]

end Neutral
end Boids

namespace Boids
section Concrete2

/-- In the scenario agent B is the only neighbour of agent A within the vision
radius. -/
theorem scenario_neighbors0 :
    neighborsWithin Real.sqrt (scenario : Memory ℝ).boids 0
      (defaultGlobals : Globals ℝ).vision = [1] := by
  obtain ⟨s1, s2, s3, s4, s5, s6, s7, s8⟩ := @defaultGlobals_scalars ℝ _ _
  have d1 : Vector2Distance Real.sqrt (⟨110, 100⟩ : Vector2 ℝ) ⟨100, 100⟩ < 75 := by
    rw [Vector2Distance_lt_iff isSqrt_real _ _ (by norm_num)]; norm_num
  rw [s4]
  simp [neighborsWithin, scenario, List.range_succ, List.filter, d1]

/-- The square root of zero, for an exact `sqrtf`. -/
theorem sqrtf_zero {F : Type} [LinearOrderedField F] {sqrtf : F → F} (hs : IsSqrt sqrtf) :
    sqrtf 0 = 0 := by
  have h := sqrtf_mul_self hs (le_refl (0 : F))
  simpa using h

/-- The speed limiter leaves a zero velocity as it is, whatever the limits: both
rescalings go through `Vector2Normalize`, which returns the zero vector. -/
theorem checkSpeed_zero {F : Type} [LinearOrderedField F] {sqrtf : F → F} (hs : IsSqrt sqrtf)
    (g : Globals F) (p : Vector2 F) :
    checkSpeed sqrtf g ⟨p, ⟨0, 0⟩⟩ = ⟨p, ⟨0, 0⟩⟩ := by
  have h0 : sqrtf 0 = 0 := sqrtf_zero hs
  simp only [checkSpeed, Vector2Length, Vector2Normalize, Vector2Scale, Vector2Zero, mul_zero,
    add_zero, h0, gt_iff_lt, lt_irrefl, if_false, zero_mul]
  split_ifs <;> rfl

end Concrete2
end Boids

namespace Boids
section Concrete3

/-- The fields of the neutral globals that the loop of `update` reads. -/
theorem neutralGlobals_fields {F : Type} [LinearOrderedField F] [FloorRing F] :
    (neutralGlobals : Globals F).marginStart = ⟨200, 200⟩ ∧
    (neutralGlobals : Globals F).marginEnd = ⟨1000, 600⟩ ∧
    (neutralGlobals : Globals F).marginTurnFactor = 1 ∧
    (neutralGlobals : Globals F).speedLimitMin = 1 ∧
    (neutralGlobals : Globals F).speedLimitMax = 10 ∧
    (neutralGlobals : Globals F).centeringFactor = 0 ∧
    (neutralGlobals : Globals F).avoidFactor = 0 ∧
    (neutralGlobals : Globals F).matchFactor = 0 := by
  obtain ⟨m1, m2⟩ := @defaultGlobals_margins F _ _
  obtain ⟨s1, s2, s3, -⟩ := @defaultGlobals_scalars F _ _
  simp only [neutralGlobals, m1, m2, s1, s2, s3, and_self]

end Concrete3
end Boids

/-! ## The claims -/

namespace Boids
section Claims
variable {F : Type} [LinearOrderedField F]

/-- C1 (failing input): on the store of one boid at (600,400) with velocity
(0,0), under the default globals and without a reset key press, `update`
leaves the boid where it is with velocity (0,0), for every elapsed time; its
speed is 0, strictly below `speedLimitMin = 1`, so the speed bound
`speedLimitMin ≤ |velocity|` does not hold after `update`. -/
theorem C1_update_zero_velocity_breaks_speed_bound (dt : ℝ) (rs : Nat → ℝ) :
    (update Real.sqrt defaultGlobals false rs dt
        ⟨[⟨⟨600, 400⟩, ⟨0, 0⟩⟩], [Boid.zero]⟩).boids = [⟨⟨600, 400⟩, ⟨0, 0⟩⟩] ∧
    (defaultGlobals : Globals ℝ).speedLimitMin ≤ (defaultGlobals : Globals ℝ).speedLimitMax ∧
    ∀ b ∈ (update Real.sqrt defaultGlobals false rs dt
        ⟨[⟨⟨600, 400⟩, ⟨0, 0⟩⟩], [Boid.zero]⟩).boids,
      Vector2Length Real.sqrt b.velocity = 0 ∧
      ¬ ((defaultGlobals : Globals ℝ).speedLimitMin ≤ Vector2Length Real.sqrt b.velocity) := by
  have hm := @defaultGlobals_margins ℝ _ _
  obtain ⟨s1, s2, s3, -⟩ := @defaultGlobals_scalars ℝ _ _
  have hu : (update Real.sqrt defaultGlobals false rs dt
      ⟨[⟨⟨600, 400⟩, ⟨0, 0⟩⟩], [Boid.zero]⟩).boids = [⟨⟨600, 400⟩, ⟨0, 0⟩⟩] := by
    have hsteer : steeredVelocity Real.sqrt (defaultGlobals : Globals ℝ)
        [⟨⟨600, 400⟩, ⟨0, 0⟩⟩] 0 = ⟨0, 0⟩ := by
      simp [steeredVelocity, neighborsWithin, List.range_succ, sumOffsets, Vector2Add,
        Vector2Scale]
    have hmar : checkMargins (defaultGlobals : Globals ℝ) ⟨⟨600, 400⟩, ⟨0, 0⟩⟩ =
        ⟨⟨600, 400⟩, ⟨0, 0⟩⟩ := by
      have e1 : ¬ ((600 : ℝ) < 200) := by norm_num
      have e2 : ¬ ((1000 : ℝ) < 600) := by norm_num
      have e3 : ¬ ((400 : ℝ) < 200) := by norm_num
      have e4 : ¬ ((600 : ℝ) < 400) := by norm_num
      simp [checkMargins, hm.1, hm.2, e1, e2, e3, e4]
    have hstep := (updateBoid_eq Real.sqrt defaultGlobals dt
      (⟨[⟨⟨600, 400⟩, ⟨0, 0⟩⟩], [Boid.zero]⟩ : Memory ℝ) 0
      (by simp [Memory.length]) (by simp [Memory.length])).1
    have hloop : update Real.sqrt defaultGlobals false rs dt
        (⟨[⟨⟨600, 400⟩, ⟨0, 0⟩⟩], [Boid.zero]⟩ : Memory ℝ) =
        updateBoid Real.sqrt defaultGlobals dt ⟨[⟨⟨600, 400⟩, ⟨0, 0⟩⟩], [Boid.zero]⟩ 0 := by
      simp [update, Memory.length, List.range_succ]
    rw [hloop, hstep]
    simp only [List.getD_cons_zero, hsteer, hmar, checkSpeed_zero isSqrt_real]
    simp [Vector2Add, Vector2Scale]
  refine ⟨hu, by rw [s2, s3]; norm_num, ?_⟩
  intro b hb
  rw [hu] at hb
  simp only [List.mem_singleton] at hb
  subst hb
  simp [Vector2Length, s2]

/-- C2 (counterexample): in the concrete scenario, after one `update` with
elapsed time 1/60, it is not the case that A's velocity.x is below 1 and B's
velocity.x above -1: A's velocity.x is 1.4725. -/
theorem C2_scenario_counterexample :
    ¬ (((update Real.sqrt defaultGlobals false (fun _ => 0) (1 / 60)
          (scenario : Memory ℝ)).boids.getD 0 Boid.zero).velocity.x < 1 ∧
       ((update Real.sqrt defaultGlobals false (fun _ => 0) (1 / 60)
          (scenario : Memory ℝ)).boids.getD 1 Boid.zero).velocity.x > -1) := by
  rw [scenario_update]
  simp only [List.getD_cons_zero]
  norm_num

/-- C2 (amended): in the concrete scenario, steering alone (cohesion,
separation, alignment) lowers A's velocity.x from 1 to 0.4725, but A lies in
the low-x margin band (x = 100 < 200), so `checkMargins` adds
`marginTurnFactor = 1`: after one `update` with elapsed time 1/60 A's
velocity.x is 1.4725, strictly greater than 1, and B's velocity.x is
0.488175625, strictly greater than -1. -/
theorem C2_scenario_amended (rs : Nat → ℝ) :
    (steeredVelocity Real.sqrt defaultGlobals (scenario : Memory ℝ).boids 0).x = 0.4725 ∧
    ((update Real.sqrt defaultGlobals false rs (1 / 60)
        (scenario : Memory ℝ)).boids.getD 0 Boid.zero).velocity.x = 1.4725 ∧
    ((update Real.sqrt defaultGlobals false rs (1 / 60)
        (scenario : Memory ℝ)).boids.getD 0 Boid.zero).velocity.x > 1 ∧
    ((update Real.sqrt defaultGlobals false rs (1 / 60)
        (scenario : Memory ℝ)).boids.getD 1 Boid.zero).velocity.x = 0.488175625 ∧
    ((update Real.sqrt defaultGlobals false rs (1 / 60)
        (scenario : Memory ℝ)).boids.getD 1 Boid.zero).velocity.x > -1 := by
  rw [scenario_update, scenario_steer0]
  simp only [List.getD_cons_zero, List.getD_cons_succ]
  norm_num

/-- C3: for every store whose buffer has at least `length` cells and every
agent `i` whose neighbour set `S` (the other agents strictly within `vision`)
is non-empty, `flyTowardsCenter`, called on `boids[i]` with the buffer and
the count that the scan of `update` produced for `i`, returns the boid with
the same position and with velocity
`velocity_i + (mean position over S - position_i) * centeringFactor`. -/
theorem C3_flyTowardsCenter_cohesion (sqrtf : F → F) (g : Globals F) (m : Memory F) (i : Nat)
    (hbuf : m.length ≤ m.visibleBoids.length)
    (hS : neighborsWithin sqrtf m.boids i g.vision ≠ []) :
    flyTowardsCenter g (scanVisible sqrtf g m i).1 (m.boids.getD i Boid.zero)
        (scanVisible sqrtf g m i).2 =
      { pos := (m.boids.getD i Boid.zero).pos
        velocity := Vector2Add (m.boids.getD i Boid.zero).velocity
          (Vector2Scale
            (Vector2Subtract (meanPosition m.boids (neighborsWithin sqrtf m.boids i g.vision))
              (m.boids.getD i Boid.zero).pos)
            g.centeringFactor) } :=
  flyTowardsCenter_formula sqrtf g m i hbuf hS _

/-- C3 (witness): agent A of the scenario, whose neighbour set is `[1]`; the
cohesion step turns its velocity (1,0) into (1.05,0). -/
theorem C3_flyTowardsCenter_cohesion_witness :
    (scenario : Memory ℝ).length ≤ (scenario : Memory ℝ).visibleBoids.length ∧
    neighborsWithin Real.sqrt (scenario : Memory ℝ).boids 0
      (defaultGlobals : Globals ℝ).vision ≠ [] ∧
    flyTowardsCenter defaultGlobals
        (scanVisible Real.sqrt defaultGlobals (scenario : Memory ℝ) 0).1
        ((scenario : Memory ℝ).boids.getD 0 Boid.zero)
        (scanVisible Real.sqrt defaultGlobals (scenario : Memory ℝ) 0).2 =
      ⟨⟨100, 100⟩, ⟨1.05, 0⟩⟩ := by
  have hS : neighborsWithin Real.sqrt (scenario : Memory ℝ).boids 0
      (defaultGlobals : Globals ℝ).vision ≠ [] := by
    rw [scenario_neighbors0]; simp
  have hbuf : (scenario : Memory ℝ).length ≤ (scenario : Memory ℝ).visibleBoids.length := by
    simp [scenario, Memory.length]
  refine ⟨hbuf, hS, ?_⟩
  rw [C3_flyTowardsCenter_cohesion Real.sqrt defaultGlobals scenario 0 hbuf hS,
    scenario_neighbors0]
  obtain ⟨s1, s2, s3, s4, s5, s6, s7, s8⟩ := @defaultGlobals_scalars ℝ _ _
  simp [s5, scenario, meanPosition, mean, Vector2Add, Vector2Scale, Vector2Subtract]
  norm_num

/-- C4: for every store and every agent `i`, `avoid` writes only `boids[i]`,
keeps its position and adds to its velocity exactly `avoidFactor` times the
sum of `position_i - position_j` over all agents `j ≠ i` of the whole store
whose distance to `i` is strictly less than `avoidDistance`; it leaves the
store unchanged (adds zero) when that set is empty; and its result is the same
for every value of the vision radius (the visible buffer is not among the
things it reads). -/
theorem C4_avoid_separation (sqrtf : F → F) (g : Globals F) (boids : List (Boid F)) (i : Nat) :
    avoid sqrtf g boids i =
      boids.set i
        { pos := (boids.getD i Boid.zero).pos
          velocity := Vector2Add (boids.getD i Boid.zero).velocity
            (Vector2Scale (sumOffsets boids i (neighborsWithin sqrtf boids i g.avoidDistance))
              g.avoidFactor) } ∧
    (neighborsWithin sqrtf boids i g.avoidDistance = [] → avoid sqrtf g boids i = boids) ∧
    (∀ j, j ∈ neighborsWithin sqrtf boids i g.avoidDistance ↔
      j < boids.length ∧ j ≠ i ∧
        Vector2Distance sqrtf (boids.getD i Boid.zero).pos (boids.getD j Boid.zero).pos
          < g.avoidDistance) ∧
    (∀ r : F, avoid sqrtf { g with vision := r } boids i = avoid sqrtf g boids i) := by
  refine ⟨avoid_formula sqrtf g boids i, ?_, ?_, fun r => rfl⟩
  · intro hT
    rw [avoid_formula, hT]
    have hb : ({ pos := (boids.getD i Boid.zero).pos
                 velocity := Vector2Add (boids.getD i Boid.zero).velocity
                  (Vector2Scale (sumOffsets boids i []) g.avoidFactor) } : Boid F) =
        boids.getD i Boid.zero := by
      simp [sumOffsets, Vector2Add, Vector2Scale]
    rw [hb, set_getD_self]
  · intro j
    rw [Vector2Distance_comm sqrtf (boids.getD i Boid.zero).pos]
    simp [neighborsWithin, List.mem_filter]

/-- C5: for every store (buffer of at least `length` cells) and every agent
`i < length` whose vision neighbour set `S` is non-empty: the boid that
`update` passes to `matchVelocity` (the contents of `boids[i]` after
`flyTowardsCenter` and `avoid`) has the initial position and the velocity
`v = velocity_i + cohesion delta + separation delta`; `matchVelocity` returns
it with velocity `v + (mean velocity over S - v) * matchFactor`, where `S` is
the set used by the cohesion step and the mean is the same whether taken in
the initial store or in the store at the moment of the call; and this is what
steering leaves in `boids[i]`. -/
theorem C5_matchVelocity_alignment (sqrtf : F → F) (g : Globals F) (m : Memory F) (i : Nat)
    (hi : i < m.length) (hbuf : m.length ≤ m.visibleBoids.length)
    (hS : neighborsWithin sqrtf m.boids i g.vision ≠ []) :
    (avoid sqrtf g (m.boids.set i (flyTowardsCenter g (scanVisible sqrtf g m i).1
        (m.boids.getD i Boid.zero) (scanVisible sqrtf g m i).2)) i).getD i Boid.zero =
      { pos := (m.boids.getD i Boid.zero).pos
        velocity := Vector2Add
          (Vector2Add (m.boids.getD i Boid.zero).velocity
            (Vector2Scale
              (Vector2Subtract (meanPosition m.boids (neighborsWithin sqrtf m.boids i g.vision))
                (m.boids.getD i Boid.zero).pos)
              g.centeringFactor))
          (Vector2Scale (sumOffsets m.boids i (neighborsWithin sqrtf m.boids i g.avoidDistance))
            g.avoidFactor) } ∧
    (∀ atCall : Boid F,
      matchVelocity g (scanVisible sqrtf g m i).1 atCall (scanVisible sqrtf g m i).2 =
        { pos := atCall.pos
          velocity := Vector2Add atCall.velocity
            (Vector2Scale
              (Vector2Subtract (meanVelocity m.boids (neighborsWithin sqrtf m.boids i g.vision))
                atCall.velocity)
              g.matchFactor) }) ∧
    meanVelocity
        (avoid sqrtf g (m.boids.set i (flyTowardsCenter g (scanVisible sqrtf g m i).1
          (m.boids.getD i Boid.zero) (scanVisible sqrtf g m i).2)) i)
        (neighborsWithin sqrtf m.boids i g.vision) =
      meanVelocity m.boids (neighborsWithin sqrtf m.boids i g.vision) ∧
    (steer sqrtf g m i).boids.getD i Boid.zero =
      matchVelocity g (scanVisible sqrtf g m i).1
        ((avoid sqrtf g (m.boids.set i (flyTowardsCenter g (scanVisible sqrtf g m i).1
          (m.boids.getD i Boid.zero) (scanVisible sqrtf g m i).2)) i).getD i Boid.zero)
        (scanVisible sqrtf g m i).2 := by
  have hi2 : i < m.boids.length := hi
  refine ⟨?_, fun atCall => matchVelocity_formula sqrtf g m i hbuf hS atCall, ?_, ?_⟩
  · rw [steer_atCall sqrtf g m i hi _ (flyTowardsCenter_pos _ _ _ _),
      flyTowardsCenter_formula sqrtf g m i hbuf hS]
  · have hmem : ∀ j ∈ neighborsWithin sqrtf m.boids i g.vision,
        (avoid sqrtf g (m.boids.set i (flyTowardsCenter g (scanVisible sqrtf g m i).1
          (m.boids.getD i Boid.zero) (scanVisible sqrtf g m i).2)) i).getD j Boid.zero =
        m.boids.getD j Boid.zero := by
      intro j hj
      have hji : j ≠ i := by
        simp only [neighborsWithin, List.mem_filter, decide_eq_true_eq] at hj
        exact hj.2.1
      rw [avoid_getD_ne _ _ _ _ _ hji, getD_set]
      have : ¬ (i = j ∧ i < m.boids.length) := fun hc => hji hc.1.symm
      simp only [this, if_false]
    have hx : (neighborsWithin sqrtf m.boids i g.vision).map
        (fun j => ((avoid sqrtf g (m.boids.set i (flyTowardsCenter g (scanVisible sqrtf g m i).1
          (m.boids.getD i Boid.zero) (scanVisible sqrtf g m i).2)) i).getD j
            Boid.zero).velocity.x) =
        (neighborsWithin sqrtf m.boids i g.vision).map
          (fun j => (m.boids.getD j Boid.zero).velocity.x) :=
      List.map_congr_left (fun j hj => by rw [hmem j hj])
    have hy : (neighborsWithin sqrtf m.boids i g.vision).map
        (fun j => ((avoid sqrtf g (m.boids.set i (flyTowardsCenter g (scanVisible sqrtf g m i).1
          (m.boids.getD i Boid.zero) (scanVisible sqrtf g m i).2)) i).getD j
            Boid.zero).velocity.y) =
        (neighborsWithin sqrtf m.boids i g.vision).map
          (fun j => (m.boids.getD j Boid.zero).velocity.y) :=
      List.map_congr_left (fun j hj => by rw [hmem j hj])
    unfold meanVelocity
    rw [hx, hy]
  · simp only [steer]
    rw [getD_set]
    simp only [avoid_length, List.length_set, hi2, and_self, if_true]

/-- C5 (witness): agent A of the scenario, whose neighbour set is `[1]`: what
steering leaves in `boids[0]` is the result of `matchVelocity` on the boid
left by `flyTowardsCenter` and `avoid`. -/
theorem C5_matchVelocity_alignment_witness :
    (0 < (scenario : Memory ℝ).length ∧
     (scenario : Memory ℝ).length ≤ (scenario : Memory ℝ).visibleBoids.length ∧
     neighborsWithin Real.sqrt (scenario : Memory ℝ).boids 0
       (defaultGlobals : Globals ℝ).vision ≠ []) ∧
    (steer Real.sqrt defaultGlobals (scenario : Memory ℝ) 0).boids.getD 0 Boid.zero =
      matchVelocity defaultGlobals (scanVisible Real.sqrt defaultGlobals scenario 0).1
        ((avoid Real.sqrt defaultGlobals ((scenario : Memory ℝ).boids.set 0
          (flyTowardsCenter defaultGlobals (scanVisible Real.sqrt defaultGlobals scenario 0).1
            ((scenario : Memory ℝ).boids.getD 0 Boid.zero)
            (scanVisible Real.sqrt defaultGlobals scenario 0).2)) 0).getD 0 Boid.zero)
        (scanVisible Real.sqrt defaultGlobals scenario 0).2 := by
  have hS : neighborsWithin Real.sqrt (scenario : Memory ℝ).boids 0
      (defaultGlobals : Globals ℝ).vision ≠ [] := by
    rw [scenario_neighbors0]; simp
  have hbuf : (scenario : Memory ℝ).length ≤ (scenario : Memory ℝ).visibleBoids.length := by
    simp [scenario, Memory.length]
  have hi : 0 < (scenario : Memory ℝ).length := by
    simp [scenario, Memory.length]
  exact ⟨⟨hi, hbuf, hS⟩,
    (C5_matchVelocity_alignment Real.sqrt defaultGlobals scenario 0 hi hbuf hS).2.2.2⟩

/-- C7: for every store whose buffer has at least `length` cells and every
agent `i`, after the scan of `update` for `i` the counter `visible` is the
number of elements of the neighbour set (the indices `j ≠ i`, `j < length`,
whose distance to `i` is strictly less than `vision`) and the first `visible`
cells of the buffer are the boids of these indices, in increasing index order;
an agent at distance exactly `vision` is not in the set. -/
theorem C7_scanVisible_neighbors (sqrtf : F → F) (g : Globals F) (m : Memory F) (i : Nat)
    (hbuf : m.length ≤ m.visibleBoids.length) :
    (scanVisible sqrtf g m i).2 = (neighborsWithin sqrtf m.boids i g.vision).length ∧
    (scanVisible sqrtf g m i).1.take (scanVisible sqrtf g m i).2 =
      (neighborsWithin sqrtf m.boids i g.vision).map (fun j => m.boids.getD j Boid.zero) ∧
    (neighborsWithin sqrtf m.boids i g.vision).Sorted (fun a b => a < b) ∧
    (∀ j, j ∈ neighborsWithin sqrtf m.boids i g.vision ↔
      j < m.length ∧ j ≠ i ∧
        Vector2Distance sqrtf (m.boids.getD j Boid.zero).pos (m.boids.getD i Boid.zero).pos
          < g.vision) ∧
    (∀ j, Vector2Distance sqrtf (m.boids.getD j Boid.zero).pos (m.boids.getD i Boid.zero).pos
        = g.vision → j ∉ neighborsWithin sqrtf m.boids i g.vision) := by
  refine ⟨scanVisible_count sqrtf g m i, ?_, ?_, ?_, ?_⟩
  · rw [scanVisible_count]
    exact scanVisible_take sqrtf g m i hbuf
  · exact (List.sorted_lt_range _).filter _
  · intro j
    simp [neighborsWithin, Memory.length, List.mem_filter]
  · intro j hj hmem
    simp only [neighborsWithin, List.mem_filter, decide_eq_true_eq] at hmem
    exact absurd hj (ne_of_lt hmem.2.2)

/-- C7 (witness): the scan for agent A of the scenario counts one visible
agent and puts agent B in cell 0 of the buffer. -/
theorem C7_scanVisible_neighbors_witness :
    (scenario : Memory ℝ).length ≤ (scenario : Memory ℝ).visibleBoids.length ∧
    (scanVisible Real.sqrt defaultGlobals (scenario : Memory ℝ) 0).2 = 1 ∧
    (scanVisible Real.sqrt defaultGlobals (scenario : Memory ℝ) 0).1.take
        (scanVisible Real.sqrt defaultGlobals (scenario : Memory ℝ) 0).2 =
      [⟨⟨110, 100⟩, ⟨-1, 0⟩⟩] := by
  have hbuf : (scenario : Memory ℝ).length ≤ (scenario : Memory ℝ).visibleBoids.length := by
    simp [scenario, Memory.length]
  have h := C7_scanVisible_neighbors Real.sqrt defaultGlobals scenario 0 hbuf
  refine ⟨hbuf, ?_, ?_⟩
  · rw [h.1, scenario_neighbors0]; rfl
  · rw [h.2.1, scenario_neighbors0]
    simp [scenario]

/-- C8: for every boid, `checkMargins` leaves the position unchanged, and on
each axis independently adds `marginTurnFactor` to the velocity component if
the position is strictly below `marginStart` on that axis and subtracts
`marginTurnFactor` if it is strictly above `marginEnd`; a component whose
position is in neither case is unchanged, the amount does not depend on how
far outside the position is, and both axes are handled in the same call. -/
theorem C8_checkMargins (g : Globals F) (boid : Boid F) :
    (checkMargins g boid).pos = boid.pos ∧
    (checkMargins g boid).velocity.x =
      boid.velocity.x + (if boid.pos.x < g.marginStart.x then g.marginTurnFactor else 0)
        - (if boid.pos.x > g.marginEnd.x then g.marginTurnFactor else 0) ∧
    (checkMargins g boid).velocity.y =
      boid.velocity.y + (if boid.pos.y < g.marginStart.y then g.marginTurnFactor else 0)
        - (if boid.pos.y > g.marginEnd.y then g.marginTurnFactor else 0) := by
  rcases boid with ⟨⟨px, py⟩, ⟨vx, vy⟩⟩
  by_cases h1 : px < g.marginStart.x <;> by_cases h2 : g.marginEnd.x < px <;>
    by_cases h3 : py < g.marginStart.y <;> by_cases h4 : g.marginEnd.y < py <;>
    simp [checkMargins, h1, h2, h3, h4]

/-- C9 (counterexample): under the neutral globals (behaviour factors zero,
margin 200), a single agent at (199,400), i.e. at `x = marginStart.x - 1`
with `y` inside the inner rectangle, with initial velocity (20,0), has
velocity (10,0) after one `update`, not (20 + marginTurnFactor, 0) = (21,0):
`checkSpeed` runs after `checkMargins` and rescales to `speedLimitMax`. -/
theorem C9_boundary_nudge_counterexample :
    ((neutralGlobals : Globals ℝ).centeringFactor = 0 ∧
     (neutralGlobals : Globals ℝ).avoidFactor = 0 ∧
     (neutralGlobals : Globals ℝ).matchFactor = 0) ∧
    ((199 : ℝ) = (neutralGlobals : Globals ℝ).marginStart.x - 1 ∧
     (neutralGlobals : Globals ℝ).marginStart.y ≤ 400 ∧
     (400 : ℝ) ≤ (neutralGlobals : Globals ℝ).marginEnd.y) ∧
    ((update Real.sqrt neutralGlobals false (fun _ => 0) (1 / 60)
        ⟨[⟨⟨199, 400⟩, ⟨20, 0⟩⟩], [Boid.zero]⟩).boids.getD 0 Boid.zero).velocity = ⟨10, 0⟩ ∧
    ((update Real.sqrt neutralGlobals false (fun _ => 0) (1 / 60)
        ⟨[⟨⟨199, 400⟩, ⟨20, 0⟩⟩], [Boid.zero]⟩).boids.getD 0 Boid.zero).velocity ≠
      ⟨20 + (neutralGlobals : Globals ℝ).marginTurnFactor, 0⟩ := by
  obtain ⟨m1, m2, s1, s2, s3, f1, f2, f3⟩ := @neutralGlobals_fields ℝ _ _
  have hv : ((update Real.sqrt neutralGlobals false (fun _ => 0) (1 / 60)
      ⟨[⟨⟨199, 400⟩, ⟨20, 0⟩⟩], [Boid.zero]⟩).boids.getD 0 Boid.zero).velocity =
      (⟨10, 0⟩ : Vector2 ℝ) := by
    rw [update_neutral_velocity Real.sqrt neutralGlobals f1 f2 f3 _ _ _ 0
      (by simp [Memory.length])]
    have hmar : checkMargins (neutralGlobals : Globals ℝ) ⟨⟨199, 400⟩, ⟨20, 0⟩⟩ =
        ⟨⟨199, 400⟩, ⟨21, 0⟩⟩ := by
      rw [checkMargins_low_x _ _ (by rw [m1]; norm_num) (by rw [m2]; norm_num)
        (by rw [m1]; norm_num) (by rw [m2]; norm_num), s1]
      norm_num
    have hlen : Vector2Length Real.sqrt (⟨21, 0⟩ : Vector2 ℝ) = 21 := by
      have h := sqrtf_mul_self isSqrt_real (by norm_num : (0 : ℝ) ≤ 21)
      simp only [Vector2Length]
      rw [← h]
      norm_num
    have hgt : (neutralGlobals : Globals ℝ).speedLimitMax
        < Vector2Length Real.sqrt (⟨21, 0⟩ : Vector2 ℝ) := by
      rw [hlen, s3]; norm_num
    simp only [List.getD_cons_zero, hmar, checkSpeed, gt_iff_lt, hgt, if_true]
    rw [Vector2Normalize_scale Real.sqrt _ _ (by rw [hlen]; norm_num), hlen, s3]
    simp [Vector2Scale]
    norm_num
  refine ⟨⟨f1, f2, f3⟩, ⟨by rw [m1]; norm_num, by rw [m1]; norm_num, by rw [m2]; norm_num⟩,
    hv, ?_⟩
  rw [hv, s1]
  intro h
  have hx := congrArg Vector2.x h
  norm_num at hx

/-- C9 (amended): for every store, every agent `i` placed at
`x = marginStart.x - 1` with `y` inside the inner rectangle (which is not
empty along x), any initial velocity `(vx, vy)` and
`centeringFactor = avoidFactor = matchFactor = 0`, the velocity of agent `i`
after one `update` (no reset key) is `checkSpeed` applied to
`(vx + marginTurnFactor, vy)`; it is exactly `(vx + marginTurnFactor, vy)`
whenever `speedLimitMin ≤ |(vx + marginTurnFactor, vy)| ≤ speedLimitMax`. -/
theorem C9_boundary_nudge_amended (sqrtf : F → F) (g : Globals F) (rs : Nat → F) (dt : F)
    (m : Memory F) (i : Nat) (hi : i < m.length)
    (hc : g.centeringFactor = 0) (ha : g.avoidFactor = 0) (hm : g.matchFactor = 0)
    (hx : (m.boids.getD i Boid.zero).pos.x = g.marginStart.x - 1)
    (hy1 : g.marginStart.y ≤ (m.boids.getD i Boid.zero).pos.y)
    (hy2 : (m.boids.getD i Boid.zero).pos.y ≤ g.marginEnd.y)
    (hrect : g.marginStart.x ≤ g.marginEnd.x) :
    ((update sqrtf g false rs dt m).boids.getD i Boid.zero).velocity =
      (checkSpeed sqrtf g
        ⟨(m.boids.getD i Boid.zero).pos,
         ⟨(m.boids.getD i Boid.zero).velocity.x + g.marginTurnFactor,
          (m.boids.getD i Boid.zero).velocity.y⟩⟩).velocity ∧
    (g.speedLimitMin ≤ Vector2Length sqrtf
        ⟨(m.boids.getD i Boid.zero).velocity.x + g.marginTurnFactor,
         (m.boids.getD i Boid.zero).velocity.y⟩ →
      Vector2Length sqrtf
        ⟨(m.boids.getD i Boid.zero).velocity.x + g.marginTurnFactor,
         (m.boids.getD i Boid.zero).velocity.y⟩ ≤ g.speedLimitMax →
      ((update sqrtf g false rs dt m).boids.getD i Boid.zero).velocity =
        ⟨(m.boids.getD i Boid.zero).velocity.x + g.marginTurnFactor,
         (m.boids.getD i Boid.zero).velocity.y⟩) := by
  have hlow : (m.boids.getD i Boid.zero).pos.x < g.marginStart.x := by
    rw [hx]; linarith
  have hle : (m.boids.getD i Boid.zero).pos.x ≤ g.marginEnd.x := by
    rw [hx]; linarith
  have hv := update_neutral_velocity sqrtf g hc ha hm rs dt m i hi
  rw [checkMargins_low_x g _ hlow hle hy1 hy2] at hv
  refine ⟨hv, ?_⟩
  intro h1 h2
  rw [hv]
  simp only [checkSpeed, gt_iff_lt, not_lt.mpr h1, not_lt.mpr h2, if_false]

/-- C9 (witness): under the neutral globals a single agent at (199,400) with
velocity (2,3) has velocity (3,3) after one `update`. -/
theorem C9_boundary_nudge_amended_witness :
    ((neutralGlobals : Globals ℝ).centeringFactor = 0 ∧
     (neutralGlobals : Globals ℝ).avoidFactor = 0 ∧
     (neutralGlobals : Globals ℝ).matchFactor = 0) ∧
    ((199 : ℝ) = (neutralGlobals : Globals ℝ).marginStart.x - 1 ∧
     (neutralGlobals : Globals ℝ).marginStart.y ≤ 400 ∧
     (400 : ℝ) ≤ (neutralGlobals : Globals ℝ).marginEnd.y ∧
     (neutralGlobals : Globals ℝ).marginStart.x ≤ (neutralGlobals : Globals ℝ).marginEnd.x) ∧
    ((update Real.sqrt neutralGlobals false (fun _ => 0) (1 / 60)
        ⟨[⟨⟨199, 400⟩, ⟨2, 3⟩⟩], [Boid.zero]⟩).boids.getD 0 Boid.zero).velocity = ⟨3, 3⟩ := by
  obtain ⟨m1, m2, s1, s2, s3, f1, f2, f3⟩ := @neutralGlobals_fields ℝ _ _
  have g1 : (199 : ℝ) = (neutralGlobals : Globals ℝ).marginStart.x - 1 := by
    rw [m1]; norm_num
  have g2 : (neutralGlobals : Globals ℝ).marginStart.y ≤ 400 := by
    rw [m1]; norm_num
  have g3 : (400 : ℝ) ≤ (neutralGlobals : Globals ℝ).marginEnd.y := by
    rw [m2]; norm_num
  have g4 : (neutralGlobals : Globals ℝ).marginStart.x ≤
      (neutralGlobals : Globals ℝ).marginEnd.x := by
    rw [m1, m2]; norm_num
  refine ⟨⟨f1, f2, f3⟩, ⟨g1, g2, g3, g4⟩, ?_⟩
  have h := (C9_boundary_nudge_amended Real.sqrt neutralGlobals (fun _ => 0) (1 / 60)
    ⟨[⟨⟨199, 400⟩, ⟨2, 3⟩⟩], [Boid.zero]⟩ 0 (by simp [Memory.length]) f1 f2 f3
    g1 g2 g3 g4).2
  simp only [List.getD_cons_zero, s1, s2, s3] at h
  have e : ((2 : ℝ) + 1) = 3 := by norm_num
  rw [e] at h
  apply h
  · apply not_lt.mp
    rw [real_length_lt _ _ (by norm_num)]
    norm_num
  · apply not_lt.mp
    rw [real_lt_length _ _ (by norm_num)]
    norm_num

/-- C10 (counterexample): under the default globals (`0 < speedLimitMin = 1 ≤
speedLimitMax = 10`) the velocity (0,0) has length 0, strictly below
`speedLimitMin`, and `checkSpeed` returns the boid unchanged: the result has
length 0, not `speedLimitMin` (every scalar multiple of the zero vector has
length 0). -/
theorem C10_checkSpeed_zero_velocity :
    (0 < (defaultGlobals : Globals ℝ).speedLimitMin ∧
     (defaultGlobals : Globals ℝ).speedLimitMin ≤ (defaultGlobals : Globals ℝ).speedLimitMax) ∧
    Vector2Length Real.sqrt (⟨0, 0⟩ : Vector2 ℝ) < (defaultGlobals : Globals ℝ).speedLimitMin ∧
    checkSpeed Real.sqrt (defaultGlobals : Globals ℝ) ⟨⟨600, 400⟩, ⟨0, 0⟩⟩ =
      ⟨⟨600, 400⟩, ⟨0, 0⟩⟩ ∧
    Vector2Length Real.sqrt
        (checkSpeed Real.sqrt (defaultGlobals : Globals ℝ) ⟨⟨600, 400⟩, ⟨0, 0⟩⟩).velocity ≠
      (defaultGlobals : Globals ℝ).speedLimitMin := by
  obtain ⟨s1, s2, s3, -⟩ := @defaultGlobals_scalars ℝ _ _
  have hl : Vector2Length Real.sqrt (⟨0, 0⟩ : Vector2 ℝ) = 0 := by
    simp [Vector2Length]
  refine ⟨⟨by rw [s2]; norm_num, by rw [s2, s3]; norm_num⟩, by rw [hl, s2]; norm_num,
    checkSpeed_zero isSqrt_real _ _, ?_⟩
  rw [checkSpeed_zero isSqrt_real, hl, s2]
  norm_num

end Claims
end Boids

namespace Boids
section Integrator
variable {F : Type} [LinearOrderedField F]

/-- The function `checkMargins` keeps the position. -/
theorem checkMargins_pos (g : Globals F) (boid : Boid F) :
    (checkMargins g boid).pos = boid.pos := by
  rcases boid with ⟨⟨px, py⟩, ⟨vx, vy⟩⟩
  by_cases h1 : px < g.marginStart.x <;> by_cases h2 : g.marginEnd.x < px <;>
    by_cases h3 : py < g.marginStart.y <;> by_cases h4 : g.marginEnd.y < py <;>
    simp [checkMargins, h1, h2, h3, h4]

/-- The function `checkSpeed` keeps the position. -/
theorem checkSpeed_pos (sqrtf : F → F) (g : Globals F) (boid : Boid F) :
    (checkSpeed sqrtf g boid).pos = boid.pos := by
  unfold checkSpeed
  split_ifs <;> rfl

/-- Steering keeps the position of agent `i`. -/
theorem steer_pos (sqrtf : F → F) (g : Globals F) (m : Memory F) (i : Nat) (hi : i < m.length) :
    ((steer sqrtf g m i).boids.getD i Boid.zero).pos = (m.boids.getD i Boid.zero).pos := by
  have hi2 : i < m.boids.length := hi
  simp only [steer]
  rw [getD_set]
  simp only [avoid_length, List.length_set, hi2, and_self, if_true]
  rw [matchVelocity_pos, steer_atCall sqrtf g m i hi _ (flyTowardsCenter_pos _ _ _ _)]

/-- The contents of `boids[i]` after iteration `i` of the loop of `update`:
the steered boid, after `checkMargins` and `checkSpeed`, moved by its velocity
times `frameTime * 60`. -/
theorem updateBoid_cell (sqrtf : F → F) (g : Globals F) (dt : F) (m : Memory F) (i : Nat)
    (hi : i < m.length) :
    (updateBoid sqrtf g dt m i).boids.getD i Boid.zero =
      { pos := Vector2Add
          (checkSpeed sqrtf g (checkMargins g ((steer sqrtf g m i).boids.getD i Boid.zero))).pos
          (Vector2Scale
            (checkSpeed sqrtf g
              (checkMargins g ((steer sqrtf g m i).boids.getD i Boid.zero))).velocity
            (dt * 60))
        velocity :=
          (checkSpeed sqrtf g
            (checkMargins g ((steer sqrtf g m i).boids.getD i Boid.zero))).velocity } := by
  have hi2 : i < (steer sqrtf g m i).boids.length := by
    rw [steer_length]; exact hi
  simp only [updateBoid]
  rw [getD_set]
  simp only [hi2, and_self, if_true]

/-- The function `randomize` keeps the number of cells. -/
theorem randomize_length (sqrtf : F → F) (g : Globals F) (rs : Nat → F) (m : Memory F) :
    (randomize sqrtf g rs m).length = m.length := by
  have h : ∀ (l : List Nat) (f : Nat → Boid F) (bs : List (Boid F)),
      (l.foldl (fun boids i => boids.set i (f i)) bs).length = bs.length := by
    intro l f
    induction l with
    | nil => intro bs; rfl
    | cons a l ih => intro bs; rw [List.foldl_cons, ih]; simp
  simp only [randomize, Memory.length]
  exact h _ _ _

/-- The loop of `update`, cell `i`: the final contents are those written by
iteration `i`, run on the store left by the iterations before it. -/
theorem update_cell (sqrtf : F → F) (g : Globals F) (keyR : Bool) (rs : Nat → F) (dt : F)
    (m : Memory F) (i : Nat) (hi : i < m.length) :
    (update sqrtf g keyR rs dt m).boids.getD i Boid.zero =
      (updateBoid sqrtf g dt
        ((List.range i).foldl (updateBoid sqrtf g dt)
          (if keyR then randomize sqrtf g rs m else m)) i).boids.getD i Boid.zero ∧
    ((List.range i).foldl (updateBoid sqrtf g dt)
      (if keyR then randomize sqrtf g rs m else m)).boids.getD i Boid.zero =
      (if keyR then randomize sqrtf g rs m else m).boids.getD i Boid.zero ∧
    i < ((List.range i).foldl (updateBoid sqrtf g dt)
      (if keyR then randomize sqrtf g rs m else m)).length := by
  have hi0 : i < (if keyR then randomize sqrtf g rs m else m).length := by
    cases keyR
    · simpa using hi
    · simp only [if_true, randomize_length]; exact hi
  obtain ⟨h1, h2, h3⟩ := updateLoop_getD sqrtf g dt _ i hi0
  refine ⟨?_, h2, ?_⟩
  · simp only [update]
    exact h1
  · unfold Memory.length
    rw [h3]
    exact hi0

end Integrator
end Boids

namespace Boids
section Claims2
variable {F : Type} [LinearOrderedField F]

/-- C11 (failing input): for all globals (in particular with
`speedLimitMin > 0`) and every position, `checkSpeed` on a boid whose velocity
is exactly the zero vector returns the zero vector: `Vector2Normalize` of the
zero vector is the zero vector (no division happens), and scaling it leaves
it zero, so the result has no direction. -/
theorem C11_checkSpeed_zero_has_no_direction (g : Globals ℝ) (p : Vector2 ℝ) :
    Vector2Normalize Real.sqrt (⟨0, 0⟩ : Vector2 ℝ) = ⟨0, 0⟩ ∧
    (checkSpeed Real.sqrt g ⟨p, ⟨0, 0⟩⟩).velocity = ⟨0, 0⟩ ∧
    (checkSpeed Real.sqrt defaultGlobals ⟨p, ⟨0, 0⟩⟩).velocity = ⟨0, 0⟩ ∧
    0 < (defaultGlobals : Globals ℝ).speedLimitMin := by
  refine ⟨?_, ?_, ?_, ?_⟩
  · simp [Vector2Normalize, Vector2Zero]
  · rw [checkSpeed_zero isSqrt_real]
  · rw [checkSpeed_zero isSqrt_real]
  · rw [(@defaultGlobals_scalars ℝ _ _).2.1]; norm_num

/-- C12: for every store, every agent `i < length` and every elapsed time
`dt`, the position of agent `i` after `update` is its position at the start of
the loop (its position before `update` when the reset key is not pressed)
plus its final velocity times `dt * 60`; the final velocity is the one
`checkSpeed` returned in iteration `i`; and steering, `checkMargins` and
`checkSpeed` keep the position. -/
theorem C12_integrator (sqrtf : F → F) (g : Globals F) (rs : Nat → F) (dt : F) (m : Memory F)
    (i : Nat) (hi : i < m.length) :
    ((update sqrtf g false rs dt m).boids.getD i Boid.zero).pos =
      Vector2Add (m.boids.getD i Boid.zero).pos
        (Vector2Scale ((update sqrtf g false rs dt m).boids.getD i Boid.zero).velocity
          (dt * 60)) ∧
    (∀ keyR : Bool,
      ((update sqrtf g keyR rs dt m).boids.getD i Boid.zero).pos =
        Vector2Add ((if keyR then randomize sqrtf g rs m else m).boids.getD i Boid.zero).pos
          (Vector2Scale ((update sqrtf g keyR rs dt m).boids.getD i Boid.zero).velocity
            (dt * 60)) ∧
      ((update sqrtf g keyR rs dt m).boids.getD i Boid.zero).velocity =
        (checkSpeed sqrtf g (checkMargins g
          ((steer sqrtf g
            ((List.range i).foldl (updateBoid sqrtf g dt)
              (if keyR then randomize sqrtf g rs m else m)) i).boids.getD i
                Boid.zero))).velocity) ∧
    (∀ (m2 : Memory F) (j : Nat), j < m2.length →
      ((steer sqrtf g m2 j).boids.getD j Boid.zero).pos = (m2.boids.getD j Boid.zero).pos) ∧
    (∀ boid : Boid F, (checkMargins g boid).pos = boid.pos) ∧
    (∀ boid : Boid F, (checkSpeed sqrtf g boid).pos = boid.pos) := by
  have hgen : ∀ keyR : Bool,
      ((update sqrtf g keyR rs dt m).boids.getD i Boid.zero).pos =
        Vector2Add ((if keyR then randomize sqrtf g rs m else m).boids.getD i Boid.zero).pos
          (Vector2Scale ((update sqrtf g keyR rs dt m).boids.getD i Boid.zero).velocity
            (dt * 60)) ∧
      ((update sqrtf g keyR rs dt m).boids.getD i Boid.zero).velocity =
        (checkSpeed sqrtf g (checkMargins g
          ((steer sqrtf g
            ((List.range i).foldl (updateBoid sqrtf g dt)
              (if keyR then randomize sqrtf g rs m else m)) i).boids.getD i
                Boid.zero))).velocity := by
    intro keyR
    obtain ⟨h1, h2, h3⟩ := update_cell sqrtf g keyR rs dt m i hi
    rw [h1, updateBoid_cell sqrtf g dt _ i h3]
    simp only [checkSpeed_pos, checkMargins_pos, steer_pos sqrtf g _ i h3, h2, and_self]
  refine ⟨?_, hgen, fun m2 j hj => steer_pos sqrtf g m2 j hj, checkMargins_pos g,
    checkSpeed_pos sqrtf g⟩
  have h := (hgen false).1
  simpa using h

/-- C12 (witness): agent A of the scenario moves from (100,100) to
(101.4725,101) with its final velocity (1.4725,1) and elapsed time 1/60. -/
theorem C12_integrator_witness :
    0 < (scenario : Memory ℝ).length ∧
    ((update Real.sqrt defaultGlobals false (fun _ => 0) (1 / 60)
        (scenario : Memory ℝ)).boids.getD 0 Boid.zero).pos =
      Vector2Add ((scenario : Memory ℝ).boids.getD 0 Boid.zero).pos
        (Vector2Scale
          ((update Real.sqrt defaultGlobals false (fun _ => 0) (1 / 60)
            (scenario : Memory ℝ)).boids.getD 0 Boid.zero).velocity
          (1 / 60 * 60)) := by
  have hi : 0 < (scenario : Memory ℝ).length := by
    simp [scenario, Memory.length]
  exact ⟨hi, (C12_integrator Real.sqrt defaultGlobals (fun _ => 0) (1 / 60) scenario 0 hi).1⟩

end Claims2
end Boids

namespace Boids
section Randomize
variable {F : Type} [LinearOrderedField F]

/-- The conversion `(int)x` of a float that holds an integer is that integer. -/
theorem floatToInt_intCast [FloorRing F] (a : Int) : floatToInt ((a : Int) : F) = a := by
  unfold floatToInt
  split_ifs
  · exact Int.floor_intCast a
  · exact Int.ceil_intCast a

/-- The fields written by `setMargin`. -/
theorem setMargin_fields [FloorRing F] (g : Globals F) (size : Int) :
    (setMargin g size).marginSize = size ∧
    (setMargin g size).innerWidth = windowWidth - 2 * size ∧
    (setMargin g size).innerHeight = windowHeight - 2 * size ∧
    (setMargin g size).marginStart = ⟨(size : F), (size : F)⟩ ∧
    (setMargin g size).marginEnd =
      ⟨((windowWidth - size : Int) : F), ((windowHeight - size : Int) : F)⟩ := by
  have hw : (((windowWidth - size : Int) : F) - (size : F)) =
      ((windowWidth - 2 * size : Int) : F) := by
    push_cast; ring
  have hh : (((windowHeight - size : Int) : F) - (size : F)) =
      ((windowHeight - 2 * size : Int) : F) := by
    push_cast; ring
  refine ⟨rfl, ?_, ?_, rfl, rfl⟩
  · simp only [setMargin]
    rw [hw, floatToInt_intCast]
  · simp only [setMargin]
    rw [hh, floatToInt_intCast]

/-- A loop that writes `f k` into cell `k` for every `k < n`. -/
theorem foldl_set_getD {α : Type} (f : Nat → α) (z : α) (n : Nat) :
    ∀ (l : List α), n ≤ l.length → ∀ i,
      ((List.range n).foldl (fun (bs : List α) k => bs.set k (f k)) l).getD i z =
        if i < n then f i else l.getD i z := by
  induction n with
  | zero => intro l _ i; simp
  | succ n ih =>
    intro l hn i
    rw [List.range_succ, List.foldl_append]
    simp only [List.foldl_cons, List.foldl_nil]
    rw [getD_set, ih l (by omega) i]
    have hlen : ((List.range n).foldl (fun (bs : List α) k => bs.set k (f k)) l).length
        = l.length := by
      clear ih hn
      induction n with
      | zero => simp
      | succ n ih2 =>
        rw [List.range_succ, List.foldl_append]
        simp only [List.foldl_cons, List.foldl_nil, List.length_set]
        exact ih2
    rw [hlen]
    by_cases h1 : n = i
    · subst h1
      have : n < l.length := by omega
      simp [this]
    · have h2 : ¬ (n = i ∧ n < l.length) := fun hc => h1 hc.1
      simp only [h2, if_false]
      by_cases h3 : i < n
      · have : i < n + 1 := by omega
        simp [h3, this]
      · have : ¬ i < n + 1 := by omega
        simp [h3, this]

/-- Every boid of the store after `randomize` is the one built from its five
draws. -/
theorem randomize_getD (sqrtf : F → F) (g : Globals F) (rs : Nat → F) (m : Memory F) (i : Nat)
    (hi : i < m.length) :
    (randomize sqrtf g rs m).boids.getD i Boid.zero =
      randomBoid sqrtf g (rs (5 * i)) (rs (5 * i + 1)) (rs (5 * i + 2)) (rs (5 * i + 3))
        (rs (5 * i + 4)) := by
  simp only [randomize, Memory.length]
  rw [foldl_set_getD _ _ _ _ (le_refl _)]
  have : i < m.boids.length := hi
  simp only [this, if_true]

end Randomize
end Boids

namespace Boids
section Randomize2
variable {F : Type} [LinearOrderedField F]

/-- An exact square root of a positive number is positive. -/
theorem sqrtf_pos {sqrtf : F → F} (hs : IsSqrt sqrtf) {x : F} (hx : 0 < x) : 0 < sqrtf x := by
  obtain ⟨h0, h1⟩ := hs x hx.le
  rcases lt_or_eq_of_le h0 with h | h
  · exact h
  · rw [← h] at h1
    simp only [mul_zero] at h1
    exact absurd h1 (ne_of_lt hx)

/-- The position of a boid built by `randomize` lies in the inner rectangle,
when the margins were set by `setMargin(size)` with
`2 * size ≤ windowWidth`, `2 * size ≤ windowHeight` and the draws are in
`[0,1]` (supporting lemma of the claim on `randomize`). -/
theorem randomBoid_pos_range [FloorRing F] (sqrtf : F → F) (g : Globals F) (size : Int)
    (hw : 2 * size ≤ windowWidth) (hh : 2 * size ≤ windowHeight)
    (r0 r1 r2 r3 r4 : F) (hr0 : 0 ≤ r0 ∧ r0 ≤ 1) (hr1 : 0 ≤ r1 ∧ r1 ≤ 1) :
    ((size : F) ≤ (randomBoid sqrtf (setMargin g size) r0 r1 r2 r3 r4).pos.x ∧
      (randomBoid sqrtf (setMargin g size) r0 r1 r2 r3 r4).pos.x
        ≤ ((windowWidth - size : Int) : F)) ∧
    ((size : F) ≤ (randomBoid sqrtf (setMargin g size) r0 r1 r2 r3 r4).pos.y ∧
      (randomBoid sqrtf (setMargin g size) r0 r1 r2 r3 r4).pos.y
        ≤ ((windowHeight - size : Int) : F)) := by
  obtain ⟨f1, f2, f3, -, -⟩ := setMargin_fields g size
  have hwF : (0 : F) ≤ ((windowWidth - 2 * size : Int) : F) := by
    exact_mod_cast (by omega : (0 : Int) ≤ windowWidth - 2 * size)
  have hhF : (0 : F) ≤ ((windowHeight - 2 * size : Int) : F) := by
    exact_mod_cast (by omega : (0 : Int) ≤ windowHeight - 2 * size)
  have ew : ((windowWidth - size : Int) : F) =
      ((windowWidth - 2 * size : Int) : F) + (size : F) := by
    push_cast; ring
  have eh : ((windowHeight - size : Int) : F) =
      ((windowHeight - 2 * size : Int) : F) + (size : F) := by
    push_cast; ring
  simp only [randomBoid, f1, f2, f3]
  rw [ew, eh]
  refine ⟨⟨?_, ?_⟩, ⟨?_, ?_⟩⟩
  · nlinarith [mul_nonneg hr0.1 hwF]
  · nlinarith [mul_nonneg (sub_nonneg.mpr hr0.2) hwF]
  · nlinarith [mul_nonneg hr1.1 hhF]
  · nlinarith [mul_nonneg (sub_nonneg.mpr hr1.2) hhF]

/-- The speed of a boid built by `randomize` is
`r4 * (speedLimitMax - speedLimitMin) + speedLimitMin`, inside the speed
limits, when the direction drawn is not the zero vector (supporting lemma of
the claim on `randomize`). -/
theorem randomBoid_speed {sqrtf : F → F} (hs : IsSqrt sqrtf) (g : Globals F)
    (hmin : 0 ≤ g.speedLimitMin) (hle : g.speedLimitMin ≤ g.speedLimitMax)
    (r0 r1 r2 r3 r4 : F) (hr4 : 0 ≤ r4 ∧ r4 ≤ 1) (hdir : r2 * 2 - 1 ≠ 0 ∨ r3 * 2 - 1 ≠ 0) :
    Vector2Length sqrtf (randomBoid sqrtf g r0 r1 r2 r3 r4).velocity =
      r4 * (g.speedLimitMax - g.speedLimitMin) + g.speedLimitMin ∧
    g.speedLimitMin ≤ Vector2Length sqrtf (randomBoid sqrtf g r0 r1 r2 r3 r4).velocity ∧
    Vector2Length sqrtf (randomBoid sqrtf g r0 r1 r2 r3 r4).velocity ≤ g.speedLimitMax := by
  have hd : 0 ≤ g.speedLimitMax - g.speedLimitMin := sub_nonneg.mpr hle
  have hn : 0 < (r2 * 2 - 1) * (r2 * 2 - 1) + (r3 * 2 - 1) * (r3 * 2 - 1) := by
    rcases hdir with h | h
    · have := mul_self_pos.mpr h
      nlinarith [mul_self_nonneg (r3 * 2 - 1)]
    · have := mul_self_pos.mpr h
      nlinarith [mul_self_nonneg (r2 * 2 - 1)]
  have hpos : 0 < Vector2Length sqrtf (⟨r2 * 2 - 1, r3 * 2 - 1⟩ : Vector2 F) :=
    sqrtf_pos hs hn
  have hs0 : 0 ≤ r4 * (g.speedLimitMax - g.speedLimitMin) + g.speedLimitMin := by
    nlinarith [mul_nonneg hr4.1 hd]
  have hv : (randomBoid sqrtf g r0 r1 r2 r3 r4).velocity =
      Vector2Scale (⟨r2 * 2 - 1, r3 * 2 - 1⟩ : Vector2 F)
        ((r4 * (g.speedLimitMax - g.speedLimitMin) + g.speedLimitMin) /
          Vector2Length sqrtf (⟨r2 * 2 - 1, r3 * 2 - 1⟩ : Vector2 F)) := by
    simp only [randomBoid]
    exact Vector2Normalize_scale sqrtf _ _ hpos
  have hl := Vector2Length_rescale hs (⟨r2 * 2 - 1, r3 * 2 - 1⟩ : Vector2 F) _ hs0 hpos
  rw [hv, hl]
  refine ⟨rfl, ?_, ?_⟩
  · nlinarith [mul_nonneg hr4.1 hd]
  · nlinarith [mul_nonneg (sub_nonneg.mpr hr4.2) hd]

/-- The integer fields of the default globals. -/
theorem defaultGlobals_inner {F : Type} [LinearOrderedField F] [FloorRing F] :
    (defaultGlobals : Globals F).marginSize = 200 ∧
    (defaultGlobals : Globals F).innerWidth = 800 ∧
    (defaultGlobals : Globals F).innerHeight = 400 := by
  obtain ⟨f1, f2, f3, -, -⟩ := setMargin_fields (initialGlobals : Globals F) 200
  refine ⟨f1, ?_, ?_⟩
  · rw [defaultGlobals, f2]; rfl
  · rw [defaultGlobals, f3]; rfl

end Randomize2

section Claims3

/-- C13 (failing input): under the default globals (margins set by
`setMargin(200)`, speed limits 1 and 10), when every draw of `randf` is 1/2,
the boid that `randomize` writes into a one-cell store is at (600,400), inside
the inner rectangle, but its direction (2 * 1/2 - 1, 2 * 1/2 - 1) is the zero
vector, which `Vector2Normalize` leaves zero: its velocity is (0,0) and its
speed 0, below `speedLimitMin`. -/
theorem C13_randomize_zero_direction :
    (randomize Real.sqrt defaultGlobals (fun _ => (1 / 2 : ℝ))
        ⟨[Boid.zero], [Boid.zero]⟩).boids = [⟨⟨600, 400⟩, ⟨0, 0⟩⟩] ∧
    Vector2Length Real.sqrt (⟨0, 0⟩ : Vector2 ℝ) = 0 ∧
    ¬ ((defaultGlobals : Globals ℝ).speedLimitMin
        ≤ Vector2Length Real.sqrt (⟨0, 0⟩ : Vector2 ℝ)) := by
  obtain ⟨i1, i2, i3⟩ := @defaultGlobals_inner ℝ _ _
  obtain ⟨s1, s2, s3, -⟩ := @defaultGlobals_scalars ℝ _ _
  have hl : Vector2Length Real.sqrt (⟨0, 0⟩ : Vector2 ℝ) = 0 := by
    simp [Vector2Length]
  refine ⟨?_, hl, by rw [hl, s2]; norm_num⟩
  have hb : randomBoid Real.sqrt (defaultGlobals : Globals ℝ) (1 / 2) (1 / 2) (1 / 2) (1 / 2)
      (1 / 2) = ⟨⟨600, 400⟩, ⟨0, 0⟩⟩ := by
    simp only [randomBoid, i1, i2, i3]
    have e : ((1 : ℝ) / 2 * 2 - 1) = 0 := by norm_num
    rw [e, Vector2Normalize_scale_zero Real.sqrt _ _ (by rw [hl]; exact lt_irrefl 0)]
    simp only [Vector2Zero]
    norm_num
  simp only [randomize, Memory.length, List.length_singleton, List.range_succ, List.range_zero,
    List.nil_append, List.foldl_cons, List.foldl_nil, hb]
  rfl

end Claims3
end Boids
namespace Boids
section Claims4
variable {F : Type} [LinearOrderedField F]

/-- C14 (counterexample): `setMargin(700)`, a margin larger than half of both
playfield dimensions, is accepted: it returns globals holding margin 700, an
inverted inner rectangle from (700,700) to (500,100) and negative inner sizes,
which are not a valid configuration; and `setup` run with
`speedLimitMin = 10 > speedLimitMax = 1` and a negative vision radius
constructs a one-boid store and keeps these values. -/
theorem C14_invalid_configuration_accepted :
    ¬ validConfig (setMargin (initialGlobals : Globals ℝ) 700) ∧
    (setMargin (initialGlobals : Globals ℝ) 700).marginSize = 700 ∧
    (setMargin (initialGlobals : Globals ℝ) 700).marginStart = ⟨700, 700⟩ ∧
    (setMargin (initialGlobals : Globals ℝ) 700).marginEnd = ⟨500, 100⟩ ∧
    (setMargin (initialGlobals : Globals ℝ) 700).innerWidth = -200 ∧
    (setMargin (initialGlobals : Globals ℝ) 700).innerHeight = -600 ∧
    ¬ validConfig (setup Real.sqrt
        { (initialGlobals : Globals ℝ) with
          speedLimitMin := 10, speedLimitMax := 1, vision := -75 } 1 (fun _ => 0)).1 ∧
    (setup Real.sqrt
        { (initialGlobals : Globals ℝ) with
          speedLimitMin := 10, speedLimitMax := 1, vision := -75 } 1 (fun _ => 0)).2.length = 1 ∧
    (setup Real.sqrt
        { (initialGlobals : Globals ℝ) with
          speedLimitMin := 10, speedLimitMax := 1, vision := -75 } 1
            (fun _ => 0)).1.speedLimitMin = 10 ∧
    (setup Real.sqrt
        { (initialGlobals : Globals ℝ) with
          speedLimitMin := 10, speedLimitMax := 1, vision := -75 } 1
            (fun _ => 0)).1.speedLimitMax = 1 := by
  obtain ⟨f1, f2, f3, f4, f5⟩ := setMargin_fields (initialGlobals : Globals ℝ) 700
  refine ⟨?_, f1, ?_, ?_, ?_, ?_, ?_, ?_, rfl, rfl⟩
  · intro h
    have h4 := h.2.2.2.1
    rw [f1] at h4
    simp [windowWidth] at h4
  · rw [f4]; norm_num
  · rw [f5]; simp only [windowWidth, windowHeight]; norm_num
  · rw [f2]; simp [windowWidth]
  · rw [f3]; simp [windowHeight]
  · intro h
    have h1 := h.1
    simp only [setup, setMargin] at h1
    norm_num at h1
  · simp only [setup, randomize_length]
    simp [Memory.length]

/-- C14 (amended): no configuration is rejected. For every integer `size`
and all globals, `setMargin` returns globals with `marginSize = size`,
`marginStart = (size, size)`,
`marginEnd = (windowWidth - size, windowHeight - size)`,
`innerWidth = windowWidth - 2 * size`, `innerHeight = windowHeight - 2 * size`
and every tunable as it was; and for all globals, every `length` and all
draws, `setup` returns the globals after `setMargin(200)` and a store of
`length` boids. -/
theorem C14_no_validation [FloorRing F] (sqrtf : F → F) (g : Globals F) (size : Int)
    (length : Nat) (rs : Nat → F) :
    ((setMargin g size).marginSize = size ∧
     (setMargin g size).marginStart = ⟨(size : F), (size : F)⟩ ∧
     (setMargin g size).marginEnd =
       ⟨((windowWidth - size : Int) : F), ((windowHeight - size : Int) : F)⟩ ∧
     (setMargin g size).innerWidth = windowWidth - 2 * size ∧
     (setMargin g size).innerHeight = windowHeight - 2 * size) ∧
    ((setMargin g size).marginTurnFactor = g.marginTurnFactor ∧
     (setMargin g size).speedLimitMin = g.speedLimitMin ∧
     (setMargin g size).speedLimitMax = g.speedLimitMax ∧
     (setMargin g size).vision = g.vision ∧
     (setMargin g size).centeringFactor = g.centeringFactor ∧
     (setMargin g size).avoidDistance = g.avoidDistance ∧
     (setMargin g size).avoidFactor = g.avoidFactor ∧
     (setMargin g size).matchFactor = g.matchFactor) ∧
    (setup sqrtf g length rs).1 = setMargin g 200 ∧
    (setup sqrtf g length rs).2.length = length ∧
    (setup sqrtf g length rs).2.visibleBoids.length = length := by
  obtain ⟨f1, f2, f3, f4, f5⟩ := setMargin_fields g size
  refine ⟨⟨f1, f4, f5, f2, f3⟩, ⟨rfl, rfl, rfl, rfl, rfl, rfl, rfl, rfl⟩, rfl, ?_, ?_⟩
  · simp only [setup, randomize_length]
    simp [Memory.length]
  · simp [setup, randomize]

/-- C17: when `length` is 0, `update`, whatever the reset key, the draws and
the elapsed time, and `randomize` return the memory they were given: the
index lists of their loops are empty, so no loop body (no boid read or write,
no division) is executed, and the store stays empty. -/
theorem C17_zero_population (sqrtf : F → F) (g : Globals F) (keyR : Bool) (rs : Nat → F)
    (dt : F) (m : Memory F) (h0 : m.length = 0) :
    List.range m.length = [] ∧
    randomize sqrtf g rs m = m ∧
    update sqrtf g keyR rs dt m = m ∧
    (update sqrtf g keyR rs dt m).boids = [] ∧
    (randomize sqrtf g rs m).boids = [] := by
  have hb : m.boids = [] := List.length_eq_zero.mp h0
  have hr : randomize sqrtf g rs m = m := by
    simp only [randomize, h0, List.range_zero, List.foldl_nil]
  have hu : update sqrtf g keyR rs dt m = m := by
    simp only [update, hr, ite_self, h0, List.range_zero, List.foldl_nil]
  refine ⟨by rw [h0]; rfl, hr, hu, by rw [hu, hb], by rw [hr, hb]⟩

/-- C17 (witness): the empty memory, with the reset key pressed. -/
theorem C17_zero_population_witness :
    (⟨[], []⟩ : Memory ℝ).length = 0 ∧
    update Real.sqrt defaultGlobals true (fun _ => 0) (1 / 60) (⟨[], []⟩ : Memory ℝ) =
      ⟨[], []⟩ :=
  ⟨rfl, (C17_zero_population Real.sqrt defaultGlobals true (fun _ => 0) (1 / 60)
    (⟨[], []⟩ : Memory ℝ) rfl).2.2.1⟩

/-- C19: for every memory and every index `i`, iteration `i` of the loop of
`update` (scan, `flyTowardsCenter`, `avoid`, `matchVelocity`, `checkMargins`,
`checkSpeed`, position update) keeps the number of boids and leaves every
cell of `boids` other than `i` exactly as it was: the new store is the old one
with cell `i` overwritten. -/
theorem C19_per_agent_frame (sqrtf : F → F) (g : Globals F) (dt : F) (m : Memory F) (i : Nat) :
    (updateBoid sqrtf g dt m i).length = m.length ∧
    (∀ j, j ≠ i →
      (updateBoid sqrtf g dt m i).boids.getD j Boid.zero = m.boids.getD j Boid.zero) ∧
    (updateBoid sqrtf g dt m i).boids =
      m.boids.set i ((updateBoid sqrtf g dt m i).boids.getD i Boid.zero) := by
  refine ⟨updateBoid_length sqrtf g dt m i,
    fun j hj => updateBoid_getD_ne sqrtf g dt m i j hj, ?_⟩
  simp only [updateBoid, steer, avoid_formula, List.set_set]
  by_cases hi : i < m.boids.length
  · rw [getD_set]
    simp [hi]
  · rw [List.set_eq_of_length_le (not_lt.mp hi),
      List.set_eq_of_length_le (not_lt.mp hi)]

end Claims4
end Boids
namespace Boids
section Bound
variable {F : Type} [LinearOrderedField F]

/-- A collecting loop leaves the cells from its counter on as they were. -/
theorem collect_fold_drop {α : Type} (p : Nat → Bool) (f : Nat → α) (buf : List α) (k : Nat) :
    ((List.range k).foldl
        (fun (acc : List α × Nat) j => if p j then (acc.1.set acc.2 (f j), acc.2 + 1) else acc)
        (buf, 0)).1.drop ((List.range k).filter p).length =
      buf.drop ((List.range k).filter p).length := by
  induction k with
  | zero => simp
  | succ k ih =>
    have h1 := (collect_fold p f buf k).1
    rw [List.range_succ, List.foldl_append, List.filter_append]
    simp only [List.foldl_cons, List.foldl_nil]
    cases hc : p k with
    | true =>
      have hf : List.filter p [k] = [k] := by simp [List.filter_cons, hc]
      rw [hf]
      simp only [if_true, List.length_append, List.length_singleton]
      rw [h1, List.drop_set_of_lt _ _ (Nat.lt_succ_self _)]
      have e1 := List.drop_drop 1 ((List.range k).filter p).length
        ((List.range k).foldl
          (fun (acc : List α × Nat) j =>
            if p j then (acc.1.set acc.2 (f j), acc.2 + 1) else acc) (buf, 0)).1
      have e2 := List.drop_drop 1 ((List.range k).filter p).length buf
      rw [← e1, ← e2, ih]
    | false =>
      have hf : List.filter p [k] = [] := by simp [List.filter_cons, hc]
      rw [hf]
      simp only [Bool.false_eq_true, if_false, List.append_nil]
      exact ih

/-- The number of indices below `k` that pass a test grows with `k`, strictly
when index `k` passes. -/
theorem filter_range_length_lt (p : Nat → Bool) (k n : Nat) (hk : k < n) (hp : p k = true) :
    ((List.range k).filter p).length < ((List.range n).filter p).length := by
  have hsub : List.Sublist ((List.range (k + 1)).filter p) ((List.range n).filter p) :=
    (List.range_sublist.mpr hk).filter p
  have hlen := hsub.length_le
  rw [List.range_succ, List.filter_append] at hlen
  have hf : List.filter p [k] = [k] := by simp [List.filter_cons, hp]
  rw [hf] at hlen
  simp only [List.length_append, List.length_singleton] at hlen
  omega

/-- The counter of the scan of `update` after the first `k` iterations. -/
theorem scan_count_before (sqrtf : F → F) (g : Globals F) (m : Memory F) (i k : Nat) :
    ((List.range k).foldl (scanStep sqrtf g m.boids i) (m.visibleBoids, 0)).2 =
      ((List.range k).filter (fun j => decide (j ≠ i ∧
        Vector2Distance sqrtf (m.boids.getD j Boid.zero).pos (m.boids.getD i Boid.zero).pos
          < g.vision))).length := by
  rw [scanStep_eq]
  exact (collect_fold _ _ _ _).1

/-- The scan of `update` leaves the cells of the buffer from `visible` on as
they were. -/
theorem scanVisible_drop (sqrtf : F → F) (g : Globals F) (m : Memory F) (i : Nat) :
    (scanVisible sqrtf g m i).1.drop (scanVisible sqrtf g m i).2 =
      m.visibleBoids.drop (scanVisible sqrtf g m i).2 := by
  rw [scanVisible_count]
  unfold scanVisible neighborsWithin Memory.length
  rw [scanStep_eq]
  exact collect_fold_drop _ _ _ _

/-- The neighbour set of an agent of the store has at most `length - 1`
elements. -/
theorem neighborsWithin_length_lt (sqrtf : F → F) (boids : List (Boid F)) (i : Nat) (r : F)
    (hi : i < boids.length) : (neighborsWithin sqrtf boids i r).length < boids.length := by
  have h := (List.length_filter_lt_length_iff_exists
    (p := fun j => decide (j ≠ i ∧
      Vector2Distance sqrtf (boids.getD j Boid.zero).pos (boids.getD i Boid.zero).pos < r))
    (l := List.range boids.length)).mpr ⟨i, List.mem_range.mpr hi, by simp⟩
  simpa [neighborsWithin] using h

end Bound
end Boids
namespace Boids
section Claims5
variable {F : Type} [LinearOrderedField F]

/-- C18: for every memory whose buffer has `length` cells and every agent
`i < length` (so `length ≥ 1`): the counter `visible` after the scan of
`update` is at most `length - 1`; at every iteration `k` of the scan the
counter, which is the index a write of that iteration uses, is inside the
buffer, and when iteration `k` writes (its test passes) that index is below
the final `visible`; the scan keeps the size of the buffer and leaves the
cells from `visible` on untouched; and every index `n < visible` read
afterwards by `flyTowardsCenter` and `matchVelocity` is inside the buffer. -/
theorem C18_visible_buffer_bound (sqrtf : F → F) (g : Globals F) (m : Memory F) (i : Nat)
    (hi : i < m.length) (hbuf : m.visibleBoids.length = m.length) :
    1 ≤ m.length ∧
    (scanVisible sqrtf g m i).2 ≤ m.length - 1 ∧
    (scanVisible sqrtf g m i).1.length = m.length ∧
    (∀ k, k < m.length →
      ((List.range k).foldl (scanStep sqrtf g m.boids i) (m.visibleBoids, 0)).2
        < m.visibleBoids.length ∧
      (k ≠ i ∧ Vector2Distance sqrtf (m.boids.getD k Boid.zero).pos
          (m.boids.getD i Boid.zero).pos < g.vision →
        ((List.range k).foldl (scanStep sqrtf g m.boids i) (m.visibleBoids, 0)).2
          < (scanVisible sqrtf g m i).2)) ∧
    (scanVisible sqrtf g m i).1.drop (scanVisible sqrtf g m i).2 =
      m.visibleBoids.drop (scanVisible sqrtf g m i).2 ∧
    (∀ n, n ∈ List.range (scanVisible sqrtf g m i).2 →
      n < (scanVisible sqrtf g m i).1.length) := by
  have hi2 : i < m.boids.length := hi
  have hlt : (scanVisible sqrtf g m i).2 < m.length := by
    rw [scanVisible_count]
    exact neighborsWithin_length_lt sqrtf m.boids i g.vision hi2
  refine ⟨by omega, by omega, by rw [scanVisible_length, hbuf], ?_,
    scanVisible_drop sqrtf g m i, ?_⟩
  · intro k hk
    rw [scan_count_before]
    constructor
    · have := filter_range_length_le (fun j => decide (j ≠ i ∧
        Vector2Distance sqrtf (m.boids.getD j Boid.zero).pos (m.boids.getD i Boid.zero).pos
          < g.vision)) k
      rw [hbuf]
      omega
    · intro htest
      rw [scanVisible_count]
      unfold neighborsWithin
      exact filter_range_length_lt _ k m.boids.length hk (by simpa using htest)
  · intro n hn
    rw [scanVisible_length, hbuf]
    have := List.mem_range.mp hn
    omega

/-- C18 (witness): agent A of the scenario, a store of two boids with a
buffer of two cells: `visible ≤ 1`. -/
theorem C18_visible_buffer_bound_witness :
    (0 < (scenario : Memory ℝ).length ∧
     (scenario : Memory ℝ).visibleBoids.length = (scenario : Memory ℝ).length) ∧
    (scanVisible Real.sqrt defaultGlobals (scenario : Memory ℝ) 0).2
      ≤ (scenario : Memory ℝ).length - 1 := by
  have hi : 0 < (scenario : Memory ℝ).length := by
    simp [scenario, Memory.length]
  have hbuf : (scenario : Memory ℝ).visibleBoids.length = (scenario : Memory ℝ).length := by
    simp [scenario, Memory.length]
  exact ⟨⟨hi, hbuf⟩,
    (C18_visible_buffer_bound Real.sqrt defaultGlobals scenario 0 hi hbuf).2.1⟩

/-- C20: the velocity of agent 0 after `update` is the same for any two
elapsed times (same store, key state and draws); with elapsed time 0 every
agent's position after `update` is its position at the start of the loop
(its position before `update` when the reset key is not pressed); and
velocities still change with elapsed time 0: in the scenario agent A's
velocity goes from (1,0) to (1.4725,1). -/
theorem C20_steering_not_scaled_by_time (sqrtf : F → F) (g : Globals F) (keyR : Bool)
    (rs : Nat → F) (m : Memory F) :
    (∀ dt1 dt2 : F,
      ((update sqrtf g keyR rs dt1 m).boids.getD 0 Boid.zero).velocity =
        ((update sqrtf g keyR rs dt2 m).boids.getD 0 Boid.zero).velocity) ∧
    (∀ i, i < m.length →
      ((update sqrtf g keyR rs 0 m).boids.getD i Boid.zero).pos =
        ((if keyR then randomize sqrtf g rs m else m).boids.getD i Boid.zero).pos) ∧
    (∀ i, i < m.length →
      ((update sqrtf g false rs 0 m).boids.getD i Boid.zero).pos =
        (m.boids.getD i Boid.zero).pos) ∧
    ((update Real.sqrt defaultGlobals false (fun _ => 0) 0
        (scenario : Memory ℝ)).boids.getD 0 Boid.zero).velocity = ⟨1.4725, 1⟩ ∧
    ((update Real.sqrt defaultGlobals false (fun _ => 0) 0
        (scenario : Memory ℝ)).boids.getD 0 Boid.zero).velocity ≠
      ((scenario : Memory ℝ).boids.getD 0 Boid.zero).velocity := by
  have hpos : ∀ (kR : Bool) i, i < m.length →
      ((update sqrtf g kR rs 0 m).boids.getD i Boid.zero).pos =
        ((if kR then randomize sqrtf g rs m else m).boids.getD i Boid.zero).pos := by
    intro kR i hi
    obtain ⟨h1, h2, h3⟩ := update_cell sqrtf g kR rs 0 m i hi
    rw [h1, updateBoid_cell sqrtf g 0 _ i h3]
    simp only [checkSpeed_pos, checkMargins_pos, steer_pos sqrtf g _ i h3, h2, zero_mul,
      Vector2Add, Vector2Scale, mul_zero, add_zero]
  have hvel : ∀ dt : F,
      ((update sqrtf g keyR rs dt m).boids.getD 0 Boid.zero).velocity =
        if 0 < m.length then
          (checkSpeed sqrtf g (checkMargins g
            ((steer sqrtf g (if keyR then randomize sqrtf g rs m else m) 0).boids.getD 0
              Boid.zero))).velocity
        else ((if keyR then randomize sqrtf g rs m else m).boids.getD 0 Boid.zero).velocity := by
    intro dt
    by_cases h0 : 0 < m.length
    · obtain ⟨h1, h2, h3⟩ := update_cell sqrtf g keyR rs dt m 0 h0
      rw [h1, updateBoid_cell sqrtf g dt _ 0 h3]
      simp only [List.range_zero, List.foldl_nil, h0, if_true]
    · have hz : m.length = 0 := by omega
      have hl : (if keyR then randomize sqrtf g rs m else m).length = 0 := by
        cases keyR
        · simpa using hz
        · simp only [if_true, randomize_length]; exact hz
      simp only [update, hl, List.range_zero, List.foldl_nil, h0, if_false]
  have hsc : ((update Real.sqrt defaultGlobals false (fun _ => 0) 0
      (scenario : Memory ℝ)).boids.getD 0 Boid.zero).velocity = (⟨1.4725, 1⟩ : Vector2 ℝ) := by
    have h0 : 0 < (scenario : Memory ℝ).length := by simp [scenario, Memory.length]
    obtain ⟨h1, -, -⟩ := update_cell Real.sqrt defaultGlobals false (fun _ => 0) 0
      (scenario : Memory ℝ) 0 h0
    have h2 := congrArg (fun l => (l.getD 0 Boid.zero).velocity) scenario_step0
    have e1 := updateBoid_cell Real.sqrt defaultGlobals (0 : ℝ) (scenario : Memory ℝ) 0 h0
    have e2 := updateBoid_cell Real.sqrt defaultGlobals (1 / 60 : ℝ) (scenario : Memory ℝ) 0 h0
    simp only [List.getD_cons_zero] at h2
    rw [e2] at h2
    rw [h1]
    simp only [List.range_zero, List.foldl_nil, Bool.false_eq_true, if_false]
    rw [e1]
    exact h2
  refine ⟨fun dt1 dt2 => by rw [hvel dt1, hvel dt2], hpos keyR, ?_, hsc, ?_⟩
  · intro i hi
    have h := hpos false i hi
    simpa using h
  · rw [hsc]
    intro h
    have hx := congrArg Vector2.x h
    simp [scenario] at hx
    norm_num at hx

end Claims5
end Boids
namespace Boids
section Concrete4

/-- Within the default speed limits `checkSpeed` changes nothing. -/
theorem checkSpeed_default_within (b : Boid ℝ)
    (h1 : 1 ≤ b.velocity.x * b.velocity.x + b.velocity.y * b.velocity.y)
    (h2 : b.velocity.x * b.velocity.x + b.velocity.y * b.velocity.y ≤ 100) :
    checkSpeed Real.sqrt (defaultGlobals : Globals ℝ) b = b := by
  obtain ⟨s1, s2, s3, -⟩ := @defaultGlobals_scalars ℝ _ _
  have c1 : ¬ (10 < Vector2Length Real.sqrt b.velocity) := by
    rw [real_lt_length _ _ (by norm_num)]; linarith
  have c2 : ¬ (Vector2Length Real.sqrt b.velocity < 1) := by
    rw [real_length_lt _ _ (by norm_num)]; linarith
  simp [checkSpeed, s2, s3, c1, c2]

/-- The loop of `update` on a memory of two boids is iteration 0 followed by
iteration 1. -/
theorem update_two {F : Type} [LinearOrderedField F] (sqrtf : F → F) (g : Globals F)
    (rs : Nat → F) (dt : F) (m : Memory F) (h2 : m.length = 2) :
    update sqrtf g false rs dt m =
      updateBoid sqrtf g dt (updateBoid sqrtf g dt m 0) 1 := by
  simp [update, h2, List.range_succ]

end Concrete4
end Boids
namespace Boids
section Concrete5

/-- Steering of the agent at (110,100) with velocity (-1,0) when it is
processed first: in the swapped scenario, index 0. -/
theorem swapped_steer0 :
    steeredVelocity Real.sqrt defaultGlobals (swapAgents (scenario : Memory ℝ)).boids 0 =
      ⟨-0.4725, 0⟩ := by
  obtain ⟨s1, s2, s3, s4, s5, s6, s7, s8⟩ := @defaultGlobals_scalars ℝ _ _
  have d1 : Vector2Distance Real.sqrt (⟨100, 100⟩ : Vector2 ℝ) ⟨110, 100⟩ < 75 := by
    rw [Vector2Distance_lt_iff isSqrt_real _ _ (by norm_num)]; norm_num
  have d2 : Vector2Distance Real.sqrt (⟨100, 100⟩ : Vector2 ℝ) ⟨110, 100⟩ < 20 := by
    rw [Vector2Distance_lt_iff isSqrt_real _ _ (by norm_num)]; norm_num
  have hS : neighborsWithin Real.sqrt (swapAgents (scenario : Memory ℝ)).boids 0 75 = [1] := by
    simp [neighborsWithin, swapAgents, scenario, List.range_succ, List.filter, d1]
  have hT : neighborsWithin Real.sqrt (swapAgents (scenario : Memory ℝ)).boids 0 20 = [1] := by
    simp [neighborsWithin, swapAgents, scenario, List.range_succ, List.filter, d2]
  simp only [steeredVelocity, s4, s5, s6, s7, s8, hS, hT]
  simp [swapAgents, scenario, meanPosition, meanVelocity, sumOffsets, mean, Vector2Add,
    Vector2Scale, Vector2Subtract]
  norm_num

/-- Steering of agent B computed on the initial store of the scenario, that is,
as it would be if agent A had not been updated before. -/
theorem scenario_steer1_initial :
    steeredVelocity Real.sqrt defaultGlobals (scenario : Memory ℝ).boids 1 = ⟨-0.4725, 0⟩ := by
  obtain ⟨s1, s2, s3, s4, s5, s6, s7, s8⟩ := @defaultGlobals_scalars ℝ _ _
  have d1 : Vector2Distance Real.sqrt (⟨100, 100⟩ : Vector2 ℝ) ⟨110, 100⟩ < 75 := by
    rw [Vector2Distance_lt_iff isSqrt_real _ _ (by norm_num)]; norm_num
  have d2 : Vector2Distance Real.sqrt (⟨100, 100⟩ : Vector2 ℝ) ⟨110, 100⟩ < 20 := by
    rw [Vector2Distance_lt_iff isSqrt_real _ _ (by norm_num)]; norm_num
  have hS : neighborsWithin Real.sqrt (scenario : Memory ℝ).boids 1 75 = [0] := by
    simp [neighborsWithin, scenario, List.range_succ, List.filter, d1]
  have hT : neighborsWithin Real.sqrt (scenario : Memory ℝ).boids 1 20 = [0] := by
    simp [neighborsWithin, scenario, List.range_succ, List.filter, d2]
  simp only [steeredVelocity, s4, s5, s6, s7, s8, hS, hT]
  simp [scenario, meanPosition, meanVelocity, sumOffsets, mean, Vector2Add,
    Vector2Scale, Vector2Subtract]
  norm_num

/-- Iteration 0 of the loop of `update` on the swapped scenario. -/
theorem swapped_step0 :
    (updateBoid Real.sqrt defaultGlobals (1 / 60) (swapAgents (scenario : Memory ℝ)) 0).boids =
      [⟨⟨110.5275, 101⟩, ⟨0.5275, 1⟩⟩, ⟨⟨100, 100⟩, ⟨1, 0⟩⟩] := by
  obtain ⟨s1, s2, s3, -⟩ := @defaultGlobals_scalars ℝ _ _
  obtain ⟨m1, m2⟩ := @defaultGlobals_margins ℝ _ _
  have h := (updateBoid_eq Real.sqrt defaultGlobals (1 / 60) (swapAgents (scenario : Memory ℝ)) 0
    (by simp [swapAgents, scenario, Memory.length])
    (by simp [swapAgents, scenario, Memory.length])).1
  rw [h, swapped_steer0]
  have hm : checkMargins (defaultGlobals : Globals ℝ)
      ⟨((swapAgents (scenario : Memory ℝ)).boids.getD 0 Boid.zero).pos, ⟨-0.4725, 0⟩⟩ =
      ⟨⟨110, 100⟩, ⟨0.5275, 1⟩⟩ := by
    simp [checkMargins, m1, m2, s1, swapAgents, scenario]
    norm_num
  rw [hm, checkSpeed_default_within _ (by norm_num) (by norm_num)]
  simp [swapAgents, scenario, Vector2Add, Vector2Scale]
  norm_num

end Concrete5
end Boids
namespace Boids
section Claims6
variable {F : Type} [LinearOrderedField F]

/-- C16: the result of `update` depends on the order of the agents. In the
scenario with elapsed time 1/60, the store after `update` of the swapped store
is not the swap of the store after `update`: the agent at (110,100) ends with
velocity (0.5275,1) when it is processed first and with
(0.488175625,1.00725) when it is processed second. The loop is iteration 0
followed by iteration 1 on the store that iteration 0 left, so the steering
of agent 1 is computed from agent 0's updated position (101.4725,101) and
velocity (1.4725,1): it gives (-0.511824375,0.00725), whereas on the initial
store it would give (-0.4725,0). -/
theorem C16_order_dependence :
    (update Real.sqrt defaultGlobals false (fun _ => 0) (1 / 60)
        (swapAgents (scenario : Memory ℝ))).boids ≠
      (swapAgents (update Real.sqrt defaultGlobals false (fun _ => 0) (1 / 60)
        (scenario : Memory ℝ))).boids ∧
    ((update Real.sqrt defaultGlobals false (fun _ => 0) (1 / 60)
        (swapAgents (scenario : Memory ℝ))).boids.getD 0 Boid.zero).velocity = ⟨0.5275, 1⟩ ∧
    ((update Real.sqrt defaultGlobals false (fun _ => 0) (1 / 60)
        (scenario : Memory ℝ)).boids.getD 1 Boid.zero).velocity = ⟨0.488175625, 1.00725⟩ ∧
    update Real.sqrt defaultGlobals false (fun _ => 0) (1 / 60) (scenario : Memory ℝ) =
      updateBoid Real.sqrt defaultGlobals (1 / 60)
        (updateBoid Real.sqrt defaultGlobals (1 / 60) (scenario : Memory ℝ) 0) 1 ∧
    (updateBoid Real.sqrt defaultGlobals (1 / 60) (scenario : Memory ℝ) 0).boids.getD 0
        Boid.zero = ⟨⟨101.4725, 101⟩, ⟨1.4725, 1⟩⟩ ∧
    steeredVelocity Real.sqrt defaultGlobals
        (updateBoid Real.sqrt defaultGlobals (1 / 60) (scenario : Memory ℝ) 0).boids 1 =
      ⟨-0.511824375, 0.00725⟩ ∧
    steeredVelocity Real.sqrt defaultGlobals (scenario : Memory ℝ).boids 1 = ⟨-0.4725, 0⟩ := by
  have hsw : ((update Real.sqrt defaultGlobals false (fun _ => 0) (1 / 60)
      (swapAgents (scenario : Memory ℝ))).boids.getD 0 Boid.zero).velocity =
      (⟨0.5275, 1⟩ : Vector2 ℝ) := by
    obtain ⟨h1, -, -⟩ := update_cell Real.sqrt defaultGlobals false (fun _ => 0) (1 / 60)
      (swapAgents (scenario : Memory ℝ)) 0 (by simp [swapAgents, scenario, Memory.length])
    rw [h1]
    simp only [List.range_zero, List.foldl_nil, Bool.false_eq_true, if_false, swapped_step0,
      List.getD_cons_zero]
  have hun : ((update Real.sqrt defaultGlobals false (fun _ => 0) (1 / 60)
      (scenario : Memory ℝ)).boids.getD 1 Boid.zero).velocity =
      (⟨0.488175625, 1.00725⟩ : Vector2 ℝ) := by
    rw [scenario_update]
    simp only [List.getD_cons_succ, List.getD_cons_zero]
  refine ⟨?_, hsw, hun, ?_, ?_, ?_, scenario_steer1_initial⟩
  · intro h
    have h2 := congrArg (fun l => (l.getD 0 Boid.zero).velocity.x) h
    simp only [hsw] at h2
    rw [swapAgents, scenario_update] at h2
    simp only [List.reverse_cons, List.reverse_nil, List.nil_append, List.singleton_append,
      List.getD_cons_zero] at h2
    norm_num at h2
  · exact update_two Real.sqrt defaultGlobals (fun _ => 0) (1 / 60) scenario
      (by simp [scenario, Memory.length])
  · rw [scenario_step0]
    simp only [List.getD_cons_zero]
  · rw [scenario_step0]
    exact scenario_steer1

end Claims6
end Boids
namespace Boids
section Claims7
variable {F : Type} [LinearOrderedField F]

/-- C10 (amended): for every velocity `v` other than the zero vector and limits
`0 < speedLimitMin ≤ speedLimitMax` (with an exact `sqrtf`), `checkSpeed`
keeps the position, returns the boid unchanged when
`speedLimitMin ≤ |v| ≤ speedLimitMax`, and otherwise returns a non-negative
scalar multiple of `v`: `v * (speedLimitMax / |v|)`, of magnitude
`speedLimitMax`, when `|v| > speedLimitMax`, and `v * (speedLimitMin / |v|)`,
of magnitude `speedLimitMin`, when `|v| < speedLimitMin`. -/
theorem C10_checkSpeed_shape_amended {sqrtf : F → F} (hs : IsSqrt sqrtf) (g : Globals F)
    (boid : Boid F) (hmin : 0 < g.speedLimitMin) (hle : g.speedLimitMin ≤ g.speedLimitMax)
    (hv : boid.velocity ≠ Vector2Zero) :
    (checkSpeed sqrtf g boid).pos = boid.pos ∧
    (g.speedLimitMin ≤ Vector2Length sqrtf boid.velocity →
      Vector2Length sqrtf boid.velocity ≤ g.speedLimitMax → checkSpeed sqrtf g boid = boid) ∧
    (g.speedLimitMax < Vector2Length sqrtf boid.velocity →
      (checkSpeed sqrtf g boid).velocity =
        Vector2Scale boid.velocity (g.speedLimitMax / Vector2Length sqrtf boid.velocity) ∧
      0 ≤ g.speedLimitMax / Vector2Length sqrtf boid.velocity ∧
      Vector2Length sqrtf (checkSpeed sqrtf g boid).velocity = g.speedLimitMax) ∧
    (Vector2Length sqrtf boid.velocity < g.speedLimitMin →
      (checkSpeed sqrtf g boid).velocity =
        Vector2Scale boid.velocity (g.speedLimitMin / Vector2Length sqrtf boid.velocity) ∧
      0 ≤ g.speedLimitMin / Vector2Length sqrtf boid.velocity ∧
      Vector2Length sqrtf (checkSpeed sqrtf g boid).velocity = g.speedLimitMin) := by
  have hn : 0 < boid.velocity.x * boid.velocity.x + boid.velocity.y * boid.velocity.y := by
    have h : boid.velocity.x ≠ 0 ∨ boid.velocity.y ≠ 0 := by
      by_contra hc
      push_neg at hc
      apply hv
      rcases boid with ⟨p, ⟨vx, vy⟩⟩
      simp only at hc
      simp only [Vector2Zero, hc.1, hc.2]
    rcases h with h | h
    · have := mul_self_pos.mpr h
      nlinarith [mul_self_nonneg boid.velocity.y]
    · have := mul_self_pos.mpr h
      nlinarith [mul_self_nonneg boid.velocity.x]
  have hpos : 0 < Vector2Length sqrtf boid.velocity := sqrtf_pos hs hn
  obtain ⟨h1, h2, h3, h4, -, -⟩ := checkSpeed_of_pos hs g boid hmin hle hpos
  exact ⟨h1, h2, h3, h4⟩

/-- C10 (witness): under the default globals the velocity (30,40), of length
50 above `speedLimitMax = 10`, is rescaled to (6,8), of length 10; and the
velocity (0.3,0.4), of length 0.5 below `speedLimitMin = 1`, is rescaled to a
velocity of length 1. -/
theorem C10_checkSpeed_shape_amended_witness :
    (IsSqrt Real.sqrt ∧ 0 < (defaultGlobals : Globals ℝ).speedLimitMin ∧
     (defaultGlobals : Globals ℝ).speedLimitMin ≤ (defaultGlobals : Globals ℝ).speedLimitMax ∧
     (⟨30, 40⟩ : Vector2 ℝ) ≠ Vector2Zero ∧ (⟨0.3, 0.4⟩ : Vector2 ℝ) ≠ Vector2Zero) ∧
    (checkSpeed Real.sqrt (defaultGlobals : Globals ℝ) ⟨⟨600, 400⟩, ⟨30, 40⟩⟩).velocity =
      ⟨6, 8⟩ ∧
    Vector2Length Real.sqrt
      (checkSpeed Real.sqrt (defaultGlobals : Globals ℝ) ⟨⟨600, 400⟩, ⟨30, 40⟩⟩).velocity =
        10 ∧
    Vector2Length Real.sqrt
      (checkSpeed Real.sqrt (defaultGlobals : Globals ℝ) ⟨⟨600, 400⟩, ⟨0.3, 0.4⟩⟩).velocity =
        1 := by
  obtain ⟨s1, s2, s3, -⟩ := @defaultGlobals_scalars ℝ _ _
  have hmin : 0 < (defaultGlobals : Globals ℝ).speedLimitMin := by rw [s2]; norm_num
  have hle : (defaultGlobals : Globals ℝ).speedLimitMin ≤
      (defaultGlobals : Globals ℝ).speedLimitMax := by rw [s2, s3]; norm_num
  have hv1 : (⟨30, 40⟩ : Vector2 ℝ) ≠ Vector2Zero := by
    intro h
    have hx := congrArg Vector2.x h
    simp [Vector2Zero] at hx
  have hv2 : (⟨0.3, 0.4⟩ : Vector2 ℝ) ≠ Vector2Zero := by
    intro h
    have hx := congrArg Vector2.x h
    simp only [Vector2Zero] at hx
    norm_num at hx
  have hl1 : Vector2Length Real.sqrt (⟨30, 40⟩ : Vector2 ℝ) = 50 := by
    have h := sqrtf_mul_self isSqrt_real (by norm_num : (0 : ℝ) ≤ 50)
    simp only [Vector2Length]
    rw [← h]
    norm_num
  have hl2 : Vector2Length Real.sqrt (⟨0.3, 0.4⟩ : Vector2 ℝ) = 0.5 := by
    have h := sqrtf_mul_self isSqrt_real (by norm_num : (0 : ℝ) ≤ 0.5)
    simp only [Vector2Length]
    rw [← h]
    norm_num
  have hbig := (C10_checkSpeed_shape_amended isSqrt_real (defaultGlobals : Globals ℝ)
    ⟨⟨600, 400⟩, ⟨30, 40⟩⟩ hmin hle hv1).2.2.1 (by rw [hl1, s3]; norm_num)
  have hsmall := (C10_checkSpeed_shape_amended isSqrt_real (defaultGlobals : Globals ℝ)
    ⟨⟨600, 400⟩, ⟨0.3, 0.4⟩⟩ hmin hle hv2).2.2.2 (by rw [hl2, s2]; norm_num)
  refine ⟨⟨isSqrt_real, hmin, hle, hv1, hv2⟩, ?_, ?_, ?_⟩
  · rw [hbig.1, hl1, s3]
    simp [Vector2Scale]
    norm_num
  · rw [hbig.2.2, s3]
  · rw [hsmall.2.2, s2]

end Claims7
end Boids
